import Mathlib

/-!
# mock-cors-server: route dispatch and CORS header resolution

A shallow embedding of `internal/config/config.go` and `pkg/server/server.go`.

Conventions of the embedding

* Go strings are Lean strings (text that is valid UTF-8); a `[]byte` is a
  `List UInt8`, and `[]byte(s)` is the UTF-8 encoding `bytes s`.  A Go `int` is
  an integer without bound: the server only stores and prints them.
* `http.Header` is an association list from key to value list.  Every key the
  server uses is a literal already in canonical MIME form (`Origin`,
  `Content-Type`, `Access-Control-Allow-Origin`, ...), on which the key
  canonicalisation of `net/http` is the identity, so keys are compared as
  written.
* `http.ResponseWriter` is the state of the response under construction, with
  the behaviour of `httptest.ResponseRecorder`: the live header map, the
  status code, the header snapshot taken by the first `WriteHeader`, and the
  bytes written so far.
* What the server reads from its surroundings is passed in explicitly: the
  file system (`FileSystem`), the formatted clock reading (`now`) and the
  case table of the `unicode` package for non-ASCII runes (`unicodeToLower`).
  Calls made to the file system are recorded in a log returned next to the
  response.
-/

namespace MockCors

/-! ## internal/config/config.go -/

/-- CORSConfig holds CORS configuration. -/
structure CORSConfig where
  AllowOrigins : List String
  AllowMethods : List String
  AllowHeaders : List String
  AllowCredentials : Bool
  MaxAge : Int
  deriving DecidableEq, Repr

/-- Route represents a single route configuration; `CORS` is a nullable pointer and
`Type_` is the field `Type` (a reserved word here). -/
structure Route where
  Path : String
  Type_ : String
  FilePath : String
  JSONContent : String
  ContentType : String
  CORS : Option CORSConfig
  deriving DecidableEq, Repr

/-- Config holds all configuration for the server. -/
structure Config where
  Port : Int
  Routes : List Route
  CORS : CORSConfig
  Version : String
  deriving DecidableEq, Repr

/-- DefaultConfig returns the default configuration. -/
def DefaultConfig : Config :=
  { Port := 8081
    Routes :=
      [{ Path := "/v1/json/begin", Type_ := "dummy", FilePath := "", JSONContent := "",
         ContentType := "application/json", CORS := none }]
    CORS :=
      { AllowOrigins := ["*"]
        AllowMethods := ["GET", "POST", "OPTIONS"]
        AllowHeaders := ["Content-Type", "Authorization", "site-token", "client-id",
                         "placement-id", "integrator-id", "oauth-type"]
        AllowCredentials := true
        MaxAge := 86400 }
    Version := "1.0.0" }

/-! ## net/http: headers, requests, response writers -/

/-- The UTF-8 encoding of a string: `[]byte(s)`. -/
def bytes (s : String) : List UInt8 :=
  s.data.flatMap String.utf8EncodeChar

/-- An `http.Header`: keys with their value lists. -/
structure Header where
  entries : List (String × List String)
  deriving DecidableEq, Repr

namespace Header

/-- The header map with no key. -/
def empty : Header := ⟨[]⟩

/-- Search of the entry list for a key. -/
def find (key : String) : List (String × List String) → Option (List String)
  | [] => none
  | (k, vs) :: rest => if k = key then some vs else find key rest

/-- The value list stored under `key`, if the key is in the map: `h[key]`. -/
def lookup (h : Header) (key : String) : Option (List String) :=
  find key h.entries

/-- Get gets the first value associated with the key, and "" if there is none. -/
def Get (h : Header) (key : String) : String :=
  match h.lookup key with
  | some (v :: _) => v
  | _ => ""

/-- Replacement of the value list of a key in the entry list, adding the key if missing. -/
def put (key : String) (vs : List String) :
    List (String × List String) → List (String × List String)
  | [] => [(key, vs)]
  | (k, old) :: rest => if k = key then (k, vs) :: rest else (k, old) :: put key vs rest

/-- Set sets the entries associated with the key to the single element value. -/
def Set (h : Header) (key value : String) : Header :=
  ⟨put key [value] h.entries⟩

/-- Del deletes the values associated with the key. -/
def Del (h : Header) (key : String) : Header :=
  ⟨h.entries.filter (fun e => e.1 ≠ key)⟩

end Header

/-- The part of an `http.Request` the server reads.  The handlers read the method and the
headers; `Path` is the escaped path of the request target (`r.URL.EscapedPath()`), which
only the mux looks at. -/
structure Request where
  Method : String
  Path : String
  Header : Header
  deriving DecidableEq, Repr

/-- The state of an `http.ResponseWriter`. -/
structure ResponseWriter where
  /-- The live header map returned by `Header()`. -/
  header : Header
  /-- Whether `WriteHeader` has run. -/
  wroteHeader : Bool
  /-- The status code. -/
  code : Nat
  /-- The headers as they stood when the status line was written. -/
  snapHeader : Header
  /-- The body bytes written so far. -/
  body : List UInt8
  deriving DecidableEq, Repr

def MethodGet : String := "GET"
def MethodHead : String := "HEAD"
def MethodPost : String := "POST"
def MethodOptions : String := "OPTIONS"

def StatusOK : Nat := 200
def StatusNotFound : Nat := 404
def StatusMethodNotAllowed : Nat := 405
def StatusInternalServerError : Nat := 500

namespace ResponseWriter

/-- A fresh response: no header set, nothing written, code 200 (`httptest.NewRecorder`). -/
def new : ResponseWriter :=
  { header := Header.empty, wroteHeader := false, code := 200,
    snapHeader := Header.empty, body := [] }

/-- WriteHeader sends the status line with the current headers; only the first call counts. -/
def WriteHeader (w : ResponseWriter) (code : Nat) : ResponseWriter :=
  if w.wroteHeader then w
  else { w with wroteHeader := true, code := code, snapHeader := w.header }

/-- Write appends to the body, after an implicit `WriteHeader(200)` when no status was
written yet.  Every handler of the server calls `WriteHeader` before its first `Write`, so
the content sniffing that the implicit call would do is never reached and is left out. -/
def Write (w : ResponseWriter) (b : List UInt8) : ResponseWriter :=
  let w1 := if w.wroteHeader then w else w.WriteHeader StatusOK
  { w1 with body := w1.body ++ b }

/-- The update of the live header map by `w.Header().Set(key, value)`. -/
def SetHeader (w : ResponseWriter) (key value : String) : ResponseWriter :=
  { w with header := w.header.Set key value }

/-- The update of the live header map by `w.Header().Del(key)`. -/
def DelHeader (w : ResponseWriter) (key : String) : ResponseWriter :=
  { w with header := w.header.Del key }

end ResponseWriter

/-- The function `http.Error`: it replies with the error message as a plain text line and
the given code. -/
def httpError (w : ResponseWriter) (error : String) (code : Nat) : ResponseWriter :=
  let w := w.DelHeader "Content-Length"
  let w := w.SetHeader "Content-Type" "text/plain; charset=utf-8"
  let w := w.SetHeader "X-Content-Type-Options" "nosniff"
  let w := w.WriteHeader code
  w.Write (bytes (error ++ "\n"))

/-! ## strings, path/filepath, fmt, encoding/json, os -/

/-- The case mapping of one rune by `strings.ToLower`: an ASCII capital becomes its small
letter and every other ASCII rune stays; a rune outside ASCII is mapped by the case table
of the `unicode` package, which is the parameter `unicodeToLower`. -/
def toLowerRune (unicodeToLower : Char → Char) (c : Char) : Char :=
  if c.val < 128 then c.toLower else unicodeToLower c

/-- The function `strings.ToLower`. -/
def ToLower (unicodeToLower : Char → Char) (s : String) : String :=
  String.mk (s.data.map (toLowerRune unicodeToLower))

/-- The function `os.IsPathSeparator` on Unix. -/
def IsPathSeparator (c : Char) : Bool :=
  c = '/'

/-- The loop of `filepath.Ext`: `before` holds the runes not yet visited, last one first,
and `after` the runes already passed, in path order. -/
def extScan : List Char → List Char → String
  | [], _ => ""
  | c :: before, after =>
    if IsPathSeparator c then ""
    else if c = '.' then String.mk (c :: after)
    else extScan before (c :: after)

/-- The function `filepath.Ext`: the suffix beginning at the final dot in the final element
of path; it is empty if there is no dot. -/
def Ext (path : String) : String :=
  extScan path.data.reverse []

/-- The text of `fmt.Sprintf("%d", n)`. -/
def formatInt (n : Int) : String :=
  toString n

/-- One of the sixteen hexadecimal digits, small letters. -/
def hexDigit (n : Nat) : Char :=
  if n < 10 then Char.ofNat (48 + n) else Char.ofNat (87 + n)

/-- The text `encoding/json` writes for one rune inside a string, with HTML escaping on
(the default of `json.Encoder`); backspace and form feed have the short forms of Go 1.22
and later.  No rune of an RFC 3339 timestamp is escaped. -/
def jsonEscape (c : Char) : List Char :=
  if c = '\\' ∨ c = '"' then ['\\', c]
  else if c = Char.ofNat 8 then ['\\', 'b']
  else if c = Char.ofNat 12 then ['\\', 'f']
  else if c = '\n' then ['\\', 'n']
  else if c = '\r' then ['\\', 'r']
  else if c = '\t' then ['\\', 't']
  else if c.val < 32 ∨ c = '<' ∨ c = '>' ∨ c = '&' then
    ['\\', 'u', '0', '0', hexDigit (c.toNat / 16), hexDigit (c.toNat % 16)]
  else if c = Char.ofNat 0x2028 then ['\\', 'u', '2', '0', '2', '8']
  else if c = Char.ofNat 0x2029 then ['\\', 'u', '2', '0', '2', '9']
  else [c]

/-- A string as a JSON string literal. -/
def jsonString (s : String) : String :=
  "\"" ++ String.mk (s.data.flatMap jsonEscape) ++ "\""

/-- What `os.Stat` reports for a name: the file is there; the error says it does not
exist (`os.IsNotExist`, which holds for the error ENOENT only); or the call failed with
another error, as it does with ENOTDIR for a name below a regular file and with EACCES for
a name in a directory that may not be searched. -/
inductive StatResult where
  | found
  | notExist
  | failed
  deriving DecidableEq, Repr

/-- The file system as the server sees it.  `Open name` is the content read from the file
when it can be opened, and `none` when `os.Open` returns an error.  `Stat` and `Open` are
separate system calls and are not assumed to agree. -/
structure FileSystem where
  Stat : String → StatResult
  Open : String → Option (List UInt8)

/-- A call made to the file system. -/
inductive FSCall where
  | Stat (name : String)
  | Open (name : String)
  | Close (name : String)
  deriving DecidableEq, Repr

/-! ## pkg/server/server.go -/

/-- ResponseData represents the structure of our JSON response. -/
structure ResponseData where
  Status : String
  Challenge : String
  Timestamp : String
  ExpiresIn : Int
  SessionID : String
  deriving DecidableEq, Repr

/-- The JSON object `encoding/json` writes for a `ResponseData`: the fields in declaration
order under the keys of their `json` tags. -/
def ResponseData.encode (d : ResponseData) : String :=
  "\x7b\"status\":" ++ jsonString d.Status ++
  ",\"challenge\":" ++ jsonString d.Challenge ++
  ",\"timestamp\":" ++ jsonString d.Timestamp ++
  ",\"expiresIn\":" ++ formatInt d.ExpiresIn ++
  ",\"sessionId\":" ++ jsonString d.SessionID ++ "\x7d"

/-- An `http.HandlerFunc`, run against a file system and a clock reading `now` (the text
of `time.Now().UTC().Format(time.RFC3339Nano)`); it returns the response and the file
system calls it made. -/
abbrev Handler := FileSystem → String → ResponseWriter → Request → ResponseWriter × List FSCall

/-- An `http.ServeMux` as the registrations made on it, oldest first.  How a request path
is resolved against the registered patterns is `ServeMux.ServeHTTP` below.  The checks
`HandleFunc` makes on a pattern are not modelled (it panics on an empty pattern and on one
registered before). -/
structure ServeMux where
  entries : List (String × Handler)

/-- The registration `mux.HandleFunc(pattern, handler)`. -/
def ServeMux.HandleFunc (mux : ServeMux) (pattern : String) (handler : Handler) : ServeMux :=
  ⟨mux.entries ++ [(pattern, handler)]⟩

/-- Server represents the HTTP server. -/
structure Server where
  config : Config
  mux : ServeMux

/-- New creates a new server with the given configuration. -/
def New (cfg : Config) : Server :=
  { config := cfg, mux := ⟨[]⟩ }

/-- The helper contains checks if a string is in a slice. -/
def contains : List String → String → Bool
  | [], _ => false
  | s :: rest, item => if s = item then true else contains rest item

/-- The loop of `joinStrings` from index `i` on, with `result` built so far. -/
def joinStringsLoop : Nat → String → List String → String
  | _, result, [] => result
  | i, result, s :: rest =>
    joinStringsLoop (i + 1) ((if i > 0 then result ++ ", " else result) ++ s) rest

/-- The helper joinStrings joins a slice of strings with commas. -/
def joinStrings (slice : List String) : String :=
  joinStringsLoop 0 "" slice

namespace Server

/-- The method setCORSHeaders sets CORS headers based on configuration. -/
def setCORSHeaders (s : Server) (w : ResponseWriter) (r : Request)
    (routeCORS : Option CORSConfig) : ResponseWriter :=
  -- Use route-specific CORS if provided, otherwise use global CORS
  let cors := match routeCORS with
    | some c => c
    | none => s.config.CORS
  let origin := r.Header.Get "Origin"
  let w := if origin ≠ "" ∧ (contains cors.AllowOrigins origin ∨ contains cors.AllowOrigins "*")
    then w.SetHeader "Access-Control-Allow-Origin" origin else w
  let w := w.SetHeader "Access-Control-Allow-Methods" (joinStrings cors.AllowMethods)
  let w := w.SetHeader "Access-Control-Allow-Headers" (joinStrings cors.AllowHeaders)
  let w := if cors.AllowCredentials then w.SetHeader "Access-Control-Allow-Credentials" "true"
    else w
  w.SetHeader "Access-Control-Max-Age" (formatInt cors.MaxAge)

/-- The method getContentTypeFromFile determines content type based on file extension. -/
def getContentTypeFromFile (_s : Server) (unicodeToLower : Char → Char) (filePath : String) :
    String :=
  let ext := ToLower unicodeToLower (Ext filePath)
  if ext = ".html" ∨ ext = ".htm" then "text/html"
  else if ext = ".css" then "text/css"
  else if ext = ".js" then "application/javascript"
  else if ext = ".json" then "application/json"
  else if ext = ".xml" then "application/xml"
  else if ext = ".txt" then "text/plain"
  else if ext = ".png" then "image/png"
  else if ext = ".jpg" ∨ ext = ".jpeg" then "image/jpeg"
  else if ext = ".gif" then "image/gif"
  else if ext = ".svg" then "image/svg+xml"
  else if ext = ".pdf" then "application/pdf"
  else "application/octet-stream"

/-- The method handleStaticFile serves a static file. -/
def handleStaticFile (_s : Server) (fs : FileSystem) (w : ResponseWriter) (r : Request)
    (filePath contentType : String) : ResponseWriter × List FSCall :=
  -- Only allow GET and HEAD methods for static files
  if r.Method ≠ MethodGet ∧ r.Method ≠ MethodHead then
    (httpError w "Method not allowed" StatusMethodNotAllowed, [])
  -- Check if file exists
  else if fs.Stat filePath = StatResult.notExist then
    (httpError w "File not found" StatusNotFound, [FSCall.Stat filePath])
  else
    -- Open the file
    match fs.Open filePath with
    | none =>
      (httpError w "Internal server error" StatusInternalServerError,
        [FSCall.Stat filePath, FSCall.Open filePath])
    | some file =>
      let w := w.SetHeader "Content-Type" contentType
      let w := w.WriteHeader StatusOK
      -- Copy file content to response (skip for HEAD requests)
      let w := if r.Method ≠ MethodHead then w.Write file else w
      (w, [FSCall.Stat filePath, FSCall.Open filePath, FSCall.Close filePath])

/-- The method handleJSONBlob serves a JSON blob from configuration. -/
def handleJSONBlob (_s : Server) (w : ResponseWriter) (r : Request)
    (jsonContent contentType : String) : ResponseWriter :=
  -- Only allow POST method for JSON blob endpoints
  if r.Method ≠ MethodPost then
    httpError w "Method not allowed" StatusMethodNotAllowed
  -- Validate JSON content
  else if jsonContent = "" then
    httpError w "No JSON content configured" StatusInternalServerError
  else
    let w := w.SetHeader "Content-Type" contentType
    let w := w.WriteHeader StatusOK
    w.Write (bytes jsonContent)

/-- The method handleDummyResponse serves the hardcoded dummy response. -/
def handleDummyResponse (_s : Server) (now : String) (w : ResponseWriter) (r : Request)
    (contentType : String) : ResponseWriter :=
  -- Only allow POST method for dummy response
  if r.Method ≠ MethodPost then
    httpError w "Method not allowed" StatusMethodNotAllowed
  else
    let responseData : ResponseData :=
      { Status := "success"
        Challenge := "abc123xyz789"
        Timestamp := now
        ExpiresIn := 300
        SessionID := "12345-67890-abcde-fghij" }
    let w := w.SetHeader "Content-Type" contentType
    let w := w.WriteHeader StatusOK
    -- Encode and send the response: the JSON text and a newline
    w.Write (bytes (responseData.encode ++ "\n"))

/-- The content type `setupRoutes` settles for a route before it builds the handler. -/
def routeContentType (s : Server) (unicodeToLower : Char → Char) (route : Route) : String :=
  let routeType := route.Type_
  let filePath := route.FilePath
  let contentType := route.ContentType
  -- Default content type based on route type
  if contentType = "" then
    if routeType = "static" then s.getContentTypeFromFile unicodeToLower filePath
    else if routeType = "json" ∨ routeType = "dummy" then "application/json"
    else "application/json"
  else contentType

/-- The handler function `setupRoutes` creates for a route, as a function of the variables
it captures. -/
def routeHandler (s : Server) (routeCORS : Option CORSConfig)
    (routeType filePath jsonContent contentType : String) : Handler :=
  fun fs now w r =>
    -- Set CORS headers
    let w := s.setCORSHeaders w r routeCORS
    -- Handle OPTIONS method (CORS preflight)
    if r.Method = MethodOptions then
      (w.WriteHeader StatusOK, [])
    -- Handle different route types
    else if routeType = "static" then s.handleStaticFile fs w r filePath contentType
    else if routeType = "json" then (s.handleJSONBlob w r jsonContent contentType, [])
    else if routeType = "dummy" then (s.handleDummyResponse now w r contentType, [])
    -- Default to dummy response for backward compatibility
    else (s.handleDummyResponse now w r contentType, [])

/-- The registration `setupRoutes` makes for one route. -/
def bindRoute (s : Server) (unicodeToLower : Char → Char) (mux : ServeMux) (route : Route) :
    ServeMux :=
  mux.HandleFunc route.Path
    (s.routeHandler route.CORS route.Type_ route.FilePath route.JSONContent
      (s.routeContentType unicodeToLower route))

/-- The method setupRoutes sets up the routes based on configuration. -/
def setupRoutes (s : Server) (unicodeToLower : Char → Char) : Server :=
  { s with mux := s.config.Routes.foldl (s.bindRoute unicodeToLower) s.mux }

end Server

end MockCors

/-! ## The documented extension table -/

namespace MockCors

/-- The extension table as the specification gives it, one row per extension (written with
its dot, the way `filepath.Ext` returns it) with its MIME type.  It follows the words of
the specification, not the code, and is what `getContentTypeFromFile` is compared with. -/
def documentedTypes : List (String × String) :=
  [(".html", "text/html"), (".htm", "text/html"), (".css", "text/css"),
   (".js", "application/javascript"), (".json", "application/json"),
   (".xml", "application/xml"), (".txt", "text/plain"), (".png", "image/png"),
   (".jpg", "image/jpeg"), (".jpeg", "image/jpeg"), (".gif", "image/gif"),
   (".svg", "image/svg+xml"), (".pdf", "application/pdf")]

end MockCors

/-! ## net/http: how ServeMux routes a request

The mux is modelled on a fragment, and gives no answer (`none`) outside of it.

* The registered patterns are distinct plain paths (`plainPath`): canonical rooted paths
  made of slashes, ASCII letters, digits and the marks `-`, `.`, `_` and `~`.  Such a
  pattern holds no host, no method, no wildcard in braces and no percent escape, and
  `HandleFunc` accepts it.
* The request path is the escaped path of the request target, made of the same runes: it
  holds no percent escape, so it is `r.URL.Path` and `r.URL.EscapedPath()` at once.

On this fragment the rules are those of every Go release.  A pattern that does not end in
a slash matches its own path only; a pattern that ends in a slash matches every path it is
a prefix of; an exact match wins, and among the prefixes the longest wins.  The releases
from 1.22 on compare segment by segment after unescaping, which on the fragment is the
same comparison.  Query strings are not modelled.  The reply of a redirect is a parameter
of `ServeHTTP`. -/

namespace MockCors

/-- The elements of a path between its slashes; `cur` is the element being read, last rune
first. -/
def splitSlash : List Char → List Char → List (List Char)
  | [], cur => [cur.reverse]
  | c :: rest, cur =>
    if c = '/' then cur.reverse :: splitSlash rest [] else splitSlash rest (c :: cur)

/-- One round of `path.Clean` on a rooted path: an empty element and a dot are dropped, two
dots drop the element kept last, any other element is kept. -/
def cleanStep (kept : List (List Char)) (elem : List Char) : List (List Char) :=
  if elem = [] ∨ elem = ['.'] then kept
  else if elem = ['.', '.'] then kept.dropLast
  else kept ++ [elem]

/-- The function `path.Clean` on a rooted path. -/
def pathClean (p : List Char) : List Char :=
  '/' :: ['/'].intercalate ((splitSlash p []).foldl cleanStep [])

/-- The function `cleanPath` of `net/http`: the canonical path for `p`, eliminating dot and
double dot elements, with a trailing slash kept. -/
def cleanPath (p : String) : String :=
  if p = "" then "/"
  else
    let p := if p.data.head? ≠ some '/' then "/" ++ p else p
    let np := String.mk (pathClean p.data)
    if p.data.getLast? = some '/' ∧ np ≠ "/" then
      if p.length = np.length + 1 ∧ np.data.isPrefixOf p.data = true then p else np ++ "/"
    else np

/-- Whether a rune may stand in a path of the fragment: a slash, an ASCII letter or digit,
or one of the marks `-`, `.`, `_`, `~`. -/
def pathRune (c : Char) : Bool :=
  c = '/' ∨ c.isAlphanum = true ∨ c = '-' ∨ c = '.' ∨ c = '_' ∨ c = '~'

/-- Whether a path is made of the runes of the fragment only, so that it holds no percent
escape, no blank and no brace. -/
def unescapedPath (p : String) : Bool :=
  p.data.all pathRune

/-- Whether a string is a plain path: rooted, made of the runes of the fragment, and
canonical (no empty element, no dot element). -/
def plainPath (p : String) : Bool :=
  p.data.head? = some '/' ∧ unescapedPath p = true ∧ cleanPath p = p

/-- Whether the registrations are within the fragment: the patterns are plain paths and no
pattern is registered twice (`HandleFunc` panics on the second registration). -/
def ServeMux.modelled (mux : ServeMux) : Bool :=
  mux.entries.all (fun e => plainPath e.1) ∧ (mux.entries.map Prod.fst).Nodup

/-- The registration under exactly this pattern, if there is one. -/
def ServeMux.exact (mux : ServeMux) (path : String) : Option (String × Handler) :=
  mux.entries.find? (fun e => e.1 = path)

/-- Whether a registration is a subtree that holds `path`: its pattern ends in a slash and
is a prefix of the path. -/
def subtreeHolds (path : String) (e : String × Handler) : Bool :=
  e.1.data.getLast? = some '/' ∧ e.1.data.isPrefixOf path.data = true

/-- One round of the search for the longest subtree that holds `path`. -/
def longerSubtree (path : String) (best : Option (String × Handler)) (e : String × Handler) :
    Option (String × Handler) :=
  if subtreeHolds path e = true then
    match best with
    | none => some e
    | some b => if b.1.length < e.1.length then some e else some b
  else best

/-- The match for a path among plain patterns: an exact match first, then the longest
subtree. -/
def ServeMux.matchPattern (mux : ServeMux) (path : String) : Option (String × Handler) :=
  match mux.exact path with
  | some e => some e
  | none => mux.entries.foldl (longerSubtree path) none

/-- Whether the mux redirects `path` to `path/`: the path is not registered and the path
with a slash added is. -/
def ServeMux.shouldRedirect (mux : ServeMux) (path : String) : Bool :=
  if (mux.exact path).isSome then false
  else if path = "" then false
  else if (mux.exact (path ++ "/")).isSome then path.data.getLast? ≠ some '/'
  else false

/-- What the mux decides for a request: a registered handler with its pattern, a redirect
(status 301) to another path, or not found. -/
inductive Routing where
  | handler (pattern : String) (h : Handler)
  | redirect (target : String)
  | notFound

/-- The match for a path, or not found. -/
def ServeMux.handler (mux : ServeMux) (path : String) : Routing :=
  match mux.matchPattern path with
  | some e => Routing.handler e.1 e.2
  | none => Routing.notFound

/-- The method `findHandler` of `ServeMux`: which handler serves the request, within the
fragment (`none` outside of it).  A CONNECT request is not made canonical; any other
request with a path that is not canonical is redirected to the canonical path. -/
def ServeMux.findHandler (mux : ServeMux) (r : Request) : Option Routing :=
  if mux.modelled = true ∧ unescapedPath r.Path = true then
    if r.Method = "CONNECT" then
      if mux.shouldRedirect r.Path = true then some (Routing.redirect (r.Path ++ "/"))
      else some (mux.handler r.Path)
    else
      let path := cleanPath r.Path
      if mux.shouldRedirect path = true then some (Routing.redirect (path ++ "/"))
      else if path ≠ r.Path then some (Routing.redirect path)
      else some (mux.handler r.Path)
  else none

/-- The method `ServeHTTP` of `ServeMux`, within the fragment (`none` outside of it): the
request is passed to the handler found, and `http.NotFound` replies when there is none.
`redirect target` stands for `http.RedirectHandler(target, 301)`. -/
def ServeMux.ServeHTTP (mux : ServeMux) (redirect : String → Handler) (fs : FileSystem)
    (now : String) (w : ResponseWriter) (r : Request) :
    Option (ResponseWriter × List FSCall) :=
  match mux.findHandler r with
  | none => none
  | some (Routing.handler _ h) => some (h fs now w r)
  | some (Routing.redirect target) => some (redirect target fs now w r)
  | some Routing.notFound => some (httpError w "404 page not found" StatusNotFound, [])

/-- The handler `setupRoutes` registers for a route. -/
def Server.boundHandler (s : Server) (unicodeToLower : Char → Char) (route : Route) : Handler :=
  s.routeHandler route.CORS route.Type_ route.FilePath route.JSONContent
    (s.routeContentType unicodeToLower route)

end MockCors

/-! ## Header families -/

namespace MockCors

/-- Whether a header key belongs to the CORS family, the keys that begin with
`Access-Control-`. -/
def isCORSHeader (key : String) : Bool :=
  "Access-Control-".data.isPrefixOf key.data

end MockCors

/-! ## Sample inputs -/

namespace MockCors

/-- A file system holding the one file `/srv/index.html` and an entry `/srv/locked` that is
there but cannot be opened. -/
def sampleFS : FileSystem :=
  { Stat := fun name =>
      if name = "/srv/index.html" ∨ name = "/srv/locked" then StatResult.found
      else StatResult.notExist
    Open := fun name =>
      if name = "/srv/index.html" then some (bytes "<html></html>") else none }

/-- The sample file system seen from the name `/srv/index.html/x`, which lies below the
regular file `/srv/index.html`: no file is there, and `os.Stat` and `os.Open` both fail
with the error ENOTDIR, which `os.IsNotExist` does not take for a missing file. -/
def sampleFSBelowFile : FileSystem :=
  { Stat := fun name =>
      if name = "/srv/index.html" then StatResult.found
      else if name = "/srv/index.html/x" then StatResult.failed
      else StatResult.notExist
    Open := fun name =>
      if name = "/srv/index.html" then some (bytes "<html></html>") else none }

/-- A request with the given method and `Origin` header. -/
def sampleRequest (method origin : String) : Request :=
  { Method := method, Path := "/v1/json/begin", Header := ⟨[("Origin", [origin])]⟩ }

/-- The two rows of the `unicode` case table whose lower case form is an ASCII letter (the
dotted capital I and the Kelvin sign); other runes are left as they are. -/
def sampleUnicodeToLower (c : Char) : Char :=
  if c = Char.ofNat 0x130 then 'i' else if c = Char.ofNat 0x212A then 'k' else c

/-- The route of the default configuration. -/
def sampleRoute : Route :=
  { Path := "/v1/json/begin", Type_ := "dummy", FilePath := "", JSONContent := "",
    ContentType := "application/json", CORS := none }

/-- A route of the given type under the given path. -/
def sampleRouteAt (path type : String) : Route :=
  { Path := path, Type_ := type, FilePath := "/srv/index.html", JSONContent := "",
    ContentType := "", CORS := none }

/-- The default configuration with one dummy route under each given path in place of its
routes. -/
def sampleConfigAt (paths : List String) : Config :=
  { DefaultConfig with Routes := paths.map (fun p => sampleRouteAt p "dummy") }

/-- The server of `sampleConfigAt`, its routes set up. -/
def sampleServerAt (paths : List String) : Server :=
  (New (sampleConfigAt paths)).setupRoutes sampleUnicodeToLower

/-- A stand-in for the reply of a redirect: status 301 and the target as `Location`. -/
def sampleRedirect (target : String) : Handler :=
  fun _ _ w _ => ((w.SetHeader "Location" target).WriteHeader 301, [])

/-- A request with the given method and path, from the origin `https://example.com`. -/
def sampleRequestTo (method path : String) : Request :=
  { Method := method, Path := path, Header := ⟨[("Origin", ["https://example.com"])]⟩ }

/-- The server of the default configuration. -/
def sampleServer : Server :=
  New DefaultConfig

end MockCors

/-! ## Lemmas on headers and response writers -/

namespace MockCors

theorem Header.find_put_same (key : String) (vs : List String)
    (l : List (String × List String)) :
    Header.find key (Header.put key vs l) = some vs := by
  induction l with
  | nil => simp [Header.put, Header.find]
  | cons e rest ih =>
    obtain ⟨k, old⟩ := e
    by_cases hk : k = key
    · simp [Header.put, Header.find, hk]
    · simp [Header.put, Header.find, hk, ih]

theorem Header.find_put_ne (key other : String) (vs : List String) (hne : other ≠ key)
    (l : List (String × List String)) :
    Header.find key (Header.put other vs l) = Header.find key l := by
  induction l with
  | nil => simp [Header.put, Header.find, hne]
  | cons e rest ih =>
    obtain ⟨k, old⟩ := e
    by_cases hk : k = other
    · subst hk
      simp [Header.put, Header.find, hne]
    · by_cases hk2 : k = key
      · subst hk2
        simp [Header.put, Header.find, hk]
      · simp [Header.put, Header.find, hk, hk2, ih]

theorem Header.lookup_Set_same (h : Header) (key value : String) :
    (h.Set key value).lookup key = some [value] := by
  simp [Header.Set, Header.lookup, Header.find_put_same]

theorem Header.lookup_Set_ne (h : Header) (key other value : String) (hne : other ≠ key) :
    (h.Set other value).lookup key = h.lookup key := by
  simp [Header.Set, Header.lookup, Header.find_put_ne _ _ _ hne]

theorem Header.lookup_empty (key : String) : Header.empty.lookup key = none := rfl

theorem contains_iff_mem (slice : List String) (item : String) :
    contains slice item = true ↔ item ∈ slice := by
  induction slice with
  | nil => simp [contains]
  | cons s rest ih =>
    by_cases hs : s = item
    · simp [contains, hs]
    · have hs2 : ¬ item = s := fun h => hs h.symm
      simp [contains, hs, hs2, ih]

end MockCors

/-! ## CORS header resolution -/

namespace MockCors

open Server

theorem setCORSHeaders_policy (s : Server) (routeCORS : Option CORSConfig) :
    (match routeCORS with
      | some c => c
      | none => s.config.CORS) = routeCORS.getD s.config.CORS := by
  cases routeCORS <;> rfl

/-- The live header map after `setCORSHeaders`, key by key for the five CORS keys. -/
theorem setCORSHeaders_lookup (s : Server) (routeCORS : Option CORSConfig) (r : Request)
    (w : ResponseWriter) (hw : w.header = Header.empty) :
    ((s.setCORSHeaders w r routeCORS).header.lookup "Access-Control-Allow-Origin" =
      if r.Header.Get "Origin" ≠ "" ∧
          (r.Header.Get "Origin" ∈ (routeCORS.getD s.config.CORS).AllowOrigins ∨
            "*" ∈ (routeCORS.getD s.config.CORS).AllowOrigins)
      then some [r.Header.Get "Origin"] else none) ∧
    ((s.setCORSHeaders w r routeCORS).header.lookup "Access-Control-Allow-Credentials" =
      if (routeCORS.getD s.config.CORS).AllowCredentials = true then some ["true"] else none) ∧
    ((s.setCORSHeaders w r routeCORS).header.lookup "Access-Control-Allow-Methods" =
      some [joinStrings (routeCORS.getD s.config.CORS).AllowMethods]) ∧
    ((s.setCORSHeaders w r routeCORS).header.lookup "Access-Control-Allow-Headers" =
      some [joinStrings (routeCORS.getD s.config.CORS).AllowHeaders]) ∧
    ((s.setCORSHeaders w r routeCORS).header.lookup "Access-Control-Max-Age" =
      some [formatInt (routeCORS.getD s.config.CORS).MaxAge]) := by
  simp only [setCORSHeaders, setCORSHeaders_policy]
  generalize routeCORS.getD s.config.CORS = cors
  simp only [ResponseWriter.SetHeader]
  refine ⟨?_, ?_, ?_, ?_, ?_⟩ <;> split_ifs <;>
    simp_all [Header.lookup_Set_ne, Header.lookup_Set_same, Header.lookup_empty,
      contains_iff_mem]

/-- Only the live header map is touched by `setCORSHeaders`. -/
theorem setCORSHeaders_frame (s : Server) (routeCORS : Option CORSConfig) (r : Request)
    (w : ResponseWriter) :
    (s.setCORSHeaders w r routeCORS).wroteHeader = w.wroteHeader ∧
    (s.setCORSHeaders w r routeCORS).code = w.code ∧
    (s.setCORSHeaders w r routeCORS).snapHeader = w.snapHeader ∧
    (s.setCORSHeaders w r routeCORS).body = w.body := by
  simp only [setCORSHeaders, ResponseWriter.SetHeader]
  refine ⟨?_, ?_, ?_, ?_⟩ <;> split_ifs <;> rfl

/-- The registrations `setupRoutes` adds: one per route, in order, under the route path. -/
theorem setupRoutes_entries (s : Server) (unicodeToLower : Char → Char) :
    (s.setupRoutes unicodeToLower).mux.entries =
      s.mux.entries ++ s.config.Routes.map (fun route =>
        (route.Path, s.routeHandler route.CORS route.Type_ route.FilePath route.JSONContent
          (s.routeContentType unicodeToLower route))) := by
  have key : ∀ (routes : List Route) (mux : ServeMux),
      (routes.foldl (s.bindRoute unicodeToLower) mux).entries =
        mux.entries ++ routes.map (fun route =>
          (route.Path, s.routeHandler route.CORS route.Type_ route.FilePath route.JSONContent
            (s.routeContentType unicodeToLower route))) := by
    intro routes
    induction routes with
    | nil => intro mux; simp
    | cons route rest ih =>
      intro mux
      simp [List.foldl, ih, bindRoute, ServeMux.HandleFunc]
  exact key s.config.Routes s.mux

/-- C1: starting from a response with no header set, `setCORSHeaders` leaves
`Access-Control-Allow-Origin` present exactly when the request Origin is non-empty and is
a member of the active policy's AllowOrigins or AllowOrigins holds "*"; when present the
value is the request Origin itself, and otherwise the key is absent. -/
theorem setCORSHeaders_allow_origin (s : Server) (routeCORS : Option CORSConfig)
    (r : Request) (w : ResponseWriter) (hw : w.header = Header.empty) :
    (((s.setCORSHeaders w r routeCORS).header.lookup "Access-Control-Allow-Origin").isSome
        = true ↔
      (r.Header.Get "Origin" ≠ "" ∧
        (r.Header.Get "Origin" ∈ (routeCORS.getD s.config.CORS).AllowOrigins ∨
          "*" ∈ (routeCORS.getD s.config.CORS).AllowOrigins))) ∧
    ((r.Header.Get "Origin" ≠ "" ∧
        (r.Header.Get "Origin" ∈ (routeCORS.getD s.config.CORS).AllowOrigins ∨
          "*" ∈ (routeCORS.getD s.config.CORS).AllowOrigins)) →
      (s.setCORSHeaders w r routeCORS).header.lookup "Access-Control-Allow-Origin" =
        some [r.Header.Get "Origin"]) ∧
    (¬ (r.Header.Get "Origin" ≠ "" ∧
        (r.Header.Get "Origin" ∈ (routeCORS.getD s.config.CORS).AllowOrigins ∨
          "*" ∈ (routeCORS.getD s.config.CORS).AllowOrigins)) →
      (s.setCORSHeaders w r routeCORS).header.lookup "Access-Control-Allow-Origin" = none) := by
  have h := (setCORSHeaders_lookup s routeCORS r w hw).1
  by_cases hc : r.Header.Get "Origin" ≠ "" ∧
      (r.Header.Get "Origin" ∈ (routeCORS.getD s.config.CORS).AllowOrigins ∨
        "*" ∈ (routeCORS.getD s.config.CORS).AllowOrigins)
  · rw [if_pos hc] at h
    refine ⟨?_, fun _ => h, fun hn => absurd hc hn⟩
    rw [h]
    exact ⟨fun _ => hc, fun _ => rfl⟩
  · rw [if_neg hc] at h
    refine ⟨?_, fun hp => absurd hp hc, fun _ => h⟩
    rw [h]
    exact ⟨fun hx => (by cases hx), fun hp => absurd hp hc⟩

/-- Witness of C1: the default policy (wildcard) echoes the origin `https://example.com`. -/
theorem setCORSHeaders_allow_origin_witness :
    ResponseWriter.new.header = Header.empty ∧
    (sampleServer.setCORSHeaders ResponseWriter.new
        (sampleRequest "GET" "https://example.com") none).header.lookup
      "Access-Control-Allow-Origin" = some ["https://example.com"] :=
  ⟨rfl, (setCORSHeaders_allow_origin sampleServer none
    (sampleRequest "GET" "https://example.com") ResponseWriter.new rfl).2.1 (by decide)⟩

/-- C2: the handler `setupRoutes` binds to a route, whatever the route type, answers an
OPTIONS request with status 200 and an empty body; the headers it sends are those
`setCORSHeaders` sets for the route's policy and the request, and nothing of the route's
own behaviour runs (no other status, no file system call, no body). -/
theorem setupRoutes_options (s : Server) (unicodeToLower : Char → Char) (fs : FileSystem)
    (now : String) (r : Request) (hm : r.Method = MethodOptions) :
    (s.setupRoutes unicodeToLower).mux.entries =
      s.mux.entries ++ s.config.Routes.map (fun route =>
        (route.Path, s.routeHandler route.CORS route.Type_ route.FilePath route.JSONContent
          (s.routeContentType unicodeToLower route))) ∧
    ∀ route : Route,
      s.routeHandler route.CORS route.Type_ route.FilePath route.JSONContent
          (s.routeContentType unicodeToLower route) fs now ResponseWriter.new r =
        ({ header := (s.setCORSHeaders ResponseWriter.new r route.CORS).header
           wroteHeader := true
           code := 200
           snapHeader := (s.setCORSHeaders ResponseWriter.new r route.CORS).header
           body := [] }, []) := by
  refine ⟨setupRoutes_entries s unicodeToLower, fun route => ?_⟩
  obtain ⟨h1, h2, h3, h4⟩ := setCORSHeaders_frame s route.CORS r ResponseWriter.new
  simp only [routeHandler, hm, if_true]
  simp only [ResponseWriter.WriteHeader, h1, h4]
  simp [ResponseWriter.new, StatusOK]

/-- Witness of C2: an OPTIONS request to the route of the default configuration. -/
theorem setupRoutes_options_witness :
    (sampleRequest "OPTIONS" "https://example.com").Method = MethodOptions ∧
    (sampleServer.setupRoutes id).mux.entries.map Prod.fst = ["/v1/json/begin"] ∧
    (sampleServer.routeHandler sampleRoute.CORS sampleRoute.Type_ sampleRoute.FilePath
        sampleRoute.JSONContent "application/json" sampleFS "t"
        ResponseWriter.new (sampleRequest "OPTIONS" "https://example.com")).1.code = 200 := by
  have h := setupRoutes_options sampleServer id sampleFS "t"
    (sampleRequest "OPTIONS" "https://example.com") rfl
  refine ⟨rfl, ?_, ?_⟩
  · rw [h.1]; rfl
  · have h2 := h.2 sampleRoute
    have hct : sampleServer.routeContentType id sampleRoute = "application/json" := by decide
    rw [hct] at h2
    exact congrArg (fun x => x.1.code) h2

/-- C3: policy selection is all or nothing.  With an override, the result is the one of a
server whose global policy is the override, asked without override, so no field of the
global policy of `s` is read; without an override, the result is the same on every server
that has the global policy of `s`. -/
theorem setCORSHeaders_policy_selection (s : Server) (w : ResponseWriter) (r : Request) :
    (∀ t : Server, s.setCORSHeaders w r (some t.config.CORS) = t.setCORSHeaders w r none) ∧
    (∀ P : CORSConfig, s.setCORSHeaders w r (some P) =
      ({ s with config := { s.config with CORS := P } } : Server).setCORSHeaders w r none) ∧
    (∀ (port : Int) (routes : List Route) (version : String) (mux : ServeMux),
      ({ config := { Port := port, Routes := routes, CORS := s.config.CORS, Version := version }
         mux := mux } : Server).setCORSHeaders w r none = s.setCORSHeaders w r none) := by
  refine ⟨fun t => ?_, fun P => ?_, fun port routes version mux => ?_⟩ <;>
    simp only [setCORSHeaders]

/-- C4: starting from a response with no header set, `setCORSHeaders` leaves
`Access-Control-Allow-Credentials` present exactly when the active policy has
AllowCredentials true; a value it has is the literal "true", and it never is "false". -/
theorem setCORSHeaders_allow_credentials (s : Server) (routeCORS : Option CORSConfig)
    (r : Request) (w : ResponseWriter) (hw : w.header = Header.empty) :
    (((s.setCORSHeaders w r routeCORS).header.lookup "Access-Control-Allow-Credentials").isSome
        = true ↔ (routeCORS.getD s.config.CORS).AllowCredentials = true) ∧
    (∀ vs, (s.setCORSHeaders w r routeCORS).header.lookup "Access-Control-Allow-Credentials"
        = some vs → vs = ["true"]) ∧
    (s.setCORSHeaders w r routeCORS).header.lookup "Access-Control-Allow-Credentials"
      ≠ some ["false"] := by
  have h := (setCORSHeaders_lookup s routeCORS r w hw).2.1
  by_cases hc : (routeCORS.getD s.config.CORS).AllowCredentials = true
  · rw [if_pos hc] at h
    rw [h]
    refine ⟨⟨fun _ => hc, fun _ => rfl⟩, fun vs hvs => ?_, by decide⟩
    cases hvs
    rfl
  · rw [if_neg hc] at h
    rw [h]
    refine ⟨⟨fun hx => (by cases hx), fun hp => absurd hp hc⟩, fun vs hvs => ?_, ?_⟩
    · cases hvs
    · intro hx
      cases hx

/-- Witness of C4: the default policy allows credentials, a policy without does not. -/
theorem setCORSHeaders_allow_credentials_witness :
    ResponseWriter.new.header = Header.empty ∧
    ((sampleServer.setCORSHeaders ResponseWriter.new (sampleRequest "GET" "") none).header.lookup
        "Access-Control-Allow-Credentials").isSome = true :=
  ⟨rfl, (setCORSHeaders_allow_credentials sampleServer none (sampleRequest "GET" "")
    ResponseWriter.new rfl).1.2 rfl⟩

/-! ## Route behaviours -/

/-- What `http.Error` leaves behind on a writer whose status is not yet written. -/
theorem httpError_result (w : ResponseWriter) (error : String) (code : Nat)
    (hw : w.wroteHeader = false) :
    (httpError w error code).code = code ∧
    (httpError w error code).wroteHeader = true ∧
    (httpError w error code).body = w.body ++ bytes (error ++ "\n") ∧
    (httpError w error code).snapHeader = (httpError w error code).header ∧
    (httpError w error code).header =
      ((w.header.Del "Content-Length").Set "Content-Type" "text/plain; charset=utf-8").Set
        "X-Content-Type-Options" "nosniff" := by
  simp [httpError, ResponseWriter.Write, ResponseWriter.WriteHeader, ResponseWriter.SetHeader,
    ResponseWriter.DelHeader, hw]

/-- The content type `http.Error` announces. -/
theorem httpError_content_type (w : ResponseWriter) (error : String) (code : Nat)
    (hw : w.wroteHeader = false) :
    (httpError w error code).snapHeader.lookup "Content-Type" =
      some ["text/plain; charset=utf-8"] := by
  obtain ⟨_, _, _, h4, h5⟩ := httpError_result w error code hw
  rw [h4, h5, Header.lookup_Set_ne _ _ _ _ (by decide), Header.lookup_Set_same]

/-- What a handler leaves behind after `Set("Content-Type", c)`, `WriteHeader(200)` and one
`Write`, on a writer whose status is not yet written. -/
theorem reply_result (w : ResponseWriter) (contentType : String) (b : List UInt8)
    (hw : w.wroteHeader = false) :
    (((w.SetHeader "Content-Type" contentType).WriteHeader StatusOK).Write b).code = 200 ∧
    (((w.SetHeader "Content-Type" contentType).WriteHeader StatusOK).Write b).body
      = w.body ++ b ∧
    (((w.SetHeader "Content-Type" contentType).WriteHeader StatusOK).Write b).snapHeader
      = w.header.Set "Content-Type" contentType ∧
    (((w.SetHeader "Content-Type" contentType).WriteHeader StatusOK).Write b).header
      = w.header.Set "Content-Type" contentType := by
  simp [ResponseWriter.Write, ResponseWriter.WriteHeader, ResponseWriter.SetHeader, hw,
    StatusOK]

/-- C5, against the claim as stated: a POST to the static behaviour is answered 405
without a file system call, but with the body `Method not allowed` and a newline, not
with an empty body. -/
theorem handleStaticFile_post_has_body :
    (sampleServer.handleStaticFile sampleFS ResponseWriter.new (sampleRequest "POST" "")
      "/srv/index.html" "text/html").1.body = bytes "Method not allowed\n" ∧
    ¬ ((sampleServer.handleStaticFile sampleFS ResponseWriter.new (sampleRequest "POST" "")
          "/srv/index.html" "text/html").1.code = 405 ∧
       (sampleServer.handleStaticFile sampleFS ResponseWriter.new (sampleRequest "POST" "")
          "/srv/index.html" "text/html").1.body = [] ∧
       (sampleServer.handleStaticFile sampleFS ResponseWriter.new (sampleRequest "POST" "")
          "/srv/index.html" "text/html").2 = []) := by
  decide

/-- C5, amended: for a method that is neither GET nor HEAD, whatever the file path and the
file system, the static behaviour answers with status 405 and the plain text line
`Method not allowed` as body (content type `text/plain; charset=utf-8`), and makes no call
to the file system. -/
theorem handleStaticFile_method_not_allowed (s : Server) (fs : FileSystem)
    (w : ResponseWriter) (r : Request) (filePath contentType : String)
    (hget : r.Method ≠ MethodGet) (hhead : r.Method ≠ MethodHead)
    (hw : w.wroteHeader = false) :
    (s.handleStaticFile fs w r filePath contentType).1.code = 405 ∧
    (s.handleStaticFile fs w r filePath contentType).1.body
      = w.body ++ bytes "Method not allowed\n" ∧
    (s.handleStaticFile fs w r filePath contentType).1.snapHeader.lookup "Content-Type"
      = some ["text/plain; charset=utf-8"] ∧
    (s.handleStaticFile fs w r filePath contentType).2 = [] := by
  have h : s.handleStaticFile fs w r filePath contentType =
      (httpError w "Method not allowed" StatusMethodNotAllowed, []) := by
    simp [handleStaticFile, hget, hhead]
  obtain ⟨h1, _, h3, _, _⟩ := httpError_result w "Method not allowed" StatusMethodNotAllowed hw
  rw [h]
  exact ⟨h1, h3, httpError_content_type w _ _ hw, rfl⟩

/-- Witness of C5 amended: a POST request on a fresh response. -/
theorem handleStaticFile_method_not_allowed_witness :
    (sampleRequest "POST" "").Method ≠ MethodGet ∧
    (sampleRequest "POST" "").Method ≠ MethodHead ∧
    ResponseWriter.new.wroteHeader = false ∧
    (sampleServer.handleStaticFile sampleFS ResponseWriter.new (sampleRequest "POST" "")
      "/srv/index.html" "text/html").1.code = 405 :=
  ⟨by decide, by decide, rfl,
    (handleStaticFile_method_not_allowed sampleServer sampleFS ResponseWriter.new
      (sampleRequest "POST" "") "/srv/index.html" "text/html" (by decide) (by decide) rfl).1⟩

/-- C6: when the file is there (`os.Stat` does not report it missing) and opens with
content `B`, a GET on a fresh response is
answered with status 200, `Content-Type` equal to the configured type and the body `B`,
byte for byte; a HEAD for the same file gets the same status and the same headers, and an
empty body. -/
theorem handleStaticFile_serves_file (s : Server) (fs : FileSystem) (w : ResponseWriter)
    (get head : Request) (filePath contentType : String) (B : List UInt8)
    (hget : get.Method = MethodGet) (hhead : head.Method = MethodHead)
    (hstat : fs.Stat filePath ≠ StatResult.notExist) (hopen : fs.Open filePath = some B)
    (hw : w.wroteHeader = false) (hb : w.body = []) :
    (s.handleStaticFile fs w get filePath contentType).1.code = 200 ∧
    (s.handleStaticFile fs w get filePath contentType).1.snapHeader.lookup "Content-Type"
      = some [contentType] ∧
    (s.handleStaticFile fs w get filePath contentType).1.body = B ∧
    (s.handleStaticFile fs w head filePath contentType).1.code = 200 ∧
    (s.handleStaticFile fs w head filePath contentType).1.snapHeader
      = (s.handleStaticFile fs w get filePath contentType).1.snapHeader ∧
    (s.handleStaticFile fs w head filePath contentType).1.header
      = (s.handleStaticFile fs w get filePath contentType).1.header ∧
    (s.handleStaticFile fs w head filePath contentType).1.body = [] := by
  have hg : s.handleStaticFile fs w get filePath contentType =
      ((((w.SetHeader "Content-Type" contentType).WriteHeader StatusOK).Write B),
        [FSCall.Stat filePath, FSCall.Open filePath, FSCall.Close filePath]) := by
    simp [handleStaticFile, hget, hstat, hopen, MethodGet, MethodHead]
  have hh : s.handleStaticFile fs w head filePath contentType =
      (((w.SetHeader "Content-Type" contentType).WriteHeader StatusOK),
        [FSCall.Stat filePath, FSCall.Open filePath, FSCall.Close filePath]) := by
    simp [handleStaticFile, hhead, hstat, hopen, MethodGet, MethodHead]
  obtain ⟨h1, h2, h3, h4⟩ := reply_result w contentType B hw
  rw [hg, hh]
  refine ⟨h1, ?_, ?_, ?_, ?_, ?_, ?_⟩
  · rw [h3, Header.lookup_Set_same]
  · rw [h2, hb]; rfl
  · simp [ResponseWriter.WriteHeader, ResponseWriter.SetHeader, hw, StatusOK]
  · rw [h3]; simp [ResponseWriter.WriteHeader, ResponseWriter.SetHeader, hw]
  · rw [h4]; simp [ResponseWriter.WriteHeader, ResponseWriter.SetHeader, hw]
  · simp [ResponseWriter.WriteHeader, ResponseWriter.SetHeader, hw, hb]

/-- Witness of C6: GET and HEAD on the file of the sample file system. -/
theorem handleStaticFile_serves_file_witness :
    (sampleRequest "GET" "").Method = MethodGet ∧
    (sampleRequest "HEAD" "").Method = MethodHead ∧
    sampleFS.Stat "/srv/index.html" ≠ StatResult.notExist ∧
    sampleFS.Open "/srv/index.html" = some (bytes "<html></html>") ∧
    ResponseWriter.new.wroteHeader = false ∧
    ResponseWriter.new.body = [] ∧
    (sampleServer.handleStaticFile sampleFS ResponseWriter.new (sampleRequest "GET" "")
      "/srv/index.html" "text/html").1.body = bytes "<html></html>" :=
  ⟨rfl, rfl, by decide, by decide, rfl, rfl,
    (handleStaticFile_serves_file sampleServer sampleFS ResponseWriter.new
      (sampleRequest "GET" "") (sampleRequest "HEAD" "") "/srv/index.html" "text/html"
      (bytes "<html></html>") rfl rfl (by decide) (by decide) rfl rfl).2.2.1⟩

/-- What `handleStaticFile` answers to a GET or HEAD when the file is not served.  When
`os.Stat` reports the file missing (`os.IsNotExist`) the answer is 404 and the file is not
opened; when `os.Stat` reports anything else and `os.Open` fails the answer is 500.  In
both cases the response is the one of `http.Error`: it is the same for every configured
content type and its body is the error line.  The status is 200 only when the file was
opened. -/
theorem handleStaticFile_errors (s : Server) (fs : FileSystem) (w : ResponseWriter)
    (r : Request) (filePath contentType : String)
    (hm : r.Method = MethodGet ∨ r.Method = MethodHead) (hw : w.wroteHeader = false) :
    (fs.Stat filePath = StatResult.notExist →
      (s.handleStaticFile fs w r filePath contentType).1.code = 404 ∧
      (s.handleStaticFile fs w r filePath contentType).1.snapHeader.lookup "Content-Type"
        = some ["text/plain; charset=utf-8"] ∧
      (s.handleStaticFile fs w r filePath contentType).1.body
        = w.body ++ bytes "File not found\n" ∧
      (s.handleStaticFile fs w r filePath contentType).2 = [FSCall.Stat filePath] ∧
      ∀ other : String, s.handleStaticFile fs w r filePath other
        = s.handleStaticFile fs w r filePath contentType) ∧
    (fs.Stat filePath ≠ StatResult.notExist → fs.Open filePath = none →
      (s.handleStaticFile fs w r filePath contentType).1.code = 500 ∧
      (s.handleStaticFile fs w r filePath contentType).1.snapHeader.lookup "Content-Type"
        = some ["text/plain; charset=utf-8"] ∧
      (s.handleStaticFile fs w r filePath contentType).1.body
        = w.body ++ bytes "Internal server error\n" ∧
      ∀ other : String, s.handleStaticFile fs w r filePath other
        = s.handleStaticFile fs w r filePath contentType) ∧
    ((s.handleStaticFile fs w r filePath contentType).1.code = 200 →
      fs.Stat filePath ≠ StatResult.notExist ∧ ∃ B, fs.Open filePath = some B) := by
  have hgate : ¬ (r.Method ≠ MethodGet ∧ r.Method ≠ MethodHead) := by
    rcases hm with h | h <;> simp [h]
  refine ⟨fun hstat => ?_, fun hstat hopen => ?_, fun hcode => ?_⟩
  · have h : ∀ c : String, s.handleStaticFile fs w r filePath c =
        (httpError w "File not found" StatusNotFound, [FSCall.Stat filePath]) := by
      intro c
      simp only [handleStaticFile, if_neg hgate, hstat, if_true]
    obtain ⟨h1, _, h3, _, _⟩ := httpError_result w "File not found" StatusNotFound hw
    rw [h contentType]
    exact ⟨h1, httpError_content_type w _ _ hw, h3, rfl, fun other => h other⟩
  · have h : ∀ c : String, s.handleStaticFile fs w r filePath c =
        (httpError w "Internal server error" StatusInternalServerError,
          [FSCall.Stat filePath, FSCall.Open filePath]) := by
      intro c
      simp [handleStaticFile, hgate, hstat, hopen]
    obtain ⟨h1, _, h3, _, _⟩ :=
      httpError_result w "Internal server error" StatusInternalServerError hw
    rw [h contentType]
    exact ⟨h1, httpError_content_type w _ _ hw, h3, fun other => h other⟩
  · by_cases hstat : fs.Stat filePath = StatResult.notExist
    · have h : s.handleStaticFile fs w r filePath contentType =
          (httpError w "File not found" StatusNotFound, [FSCall.Stat filePath]) := by
        simp only [handleStaticFile, if_neg hgate, hstat, if_true]
      rw [h, (httpError_result w _ _ hw).1] at hcode
      exact absurd hcode (by decide)
    · refine ⟨hstat, ?_⟩
      cases hopen : fs.Open filePath with
      | some B => exact ⟨B, rfl⟩
      | none =>
        have h : s.handleStaticFile fs w r filePath contentType =
            (httpError w "Internal server error" StatusInternalServerError,
              [FSCall.Stat filePath, FSCall.Open filePath]) := by
          simp [handleStaticFile, hgate, hstat, hopen]
        rw [h, (httpError_result w _ _ hw).1] at hcode
        exact absurd hcode (by decide)

/-- C7, the code at the failing input: nothing exists under the name `/srv/index.html/x`,
which lies below a regular file, but `os.Stat` fails there with ENOTDIR, an error that the
test `os.IsNotExist` does not cover.  The handler goes on to `os.Open`, which fails as
well, and a GET is answered 500 with the line `Internal server error`, not 404. -/
theorem handleStaticFile_below_file :
    sampleFSBelowFile.Stat "/srv/index.html/x" = StatResult.failed ∧
    sampleFSBelowFile.Open "/srv/index.html/x" = none ∧
    (sampleServer.handleStaticFile sampleFSBelowFile ResponseWriter.new (sampleRequest "GET" "")
      "/srv/index.html/x" "text/html").1.code = 500 ∧
    (sampleServer.handleStaticFile sampleFSBelowFile ResponseWriter.new (sampleRequest "GET" "")
      "/srv/index.html/x" "text/html").1.body = bytes "Internal server error\n" ∧
    (sampleServer.handleStaticFile sampleFSBelowFile ResponseWriter.new (sampleRequest "GET" "")
      "/srv/index.html/x" "text/html").2
      = [FSCall.Stat "/srv/index.html/x", FSCall.Open "/srv/index.html/x"] ∧
    (sampleServer.handleStaticFile sampleFSBelowFile ResponseWriter.new (sampleRequest "GET" "")
      "/srv/index.html/x" "text/html").1.code ≠ 404 := by
  decide

/-- The UTF-8 encoding of a concatenation. -/
theorem bytes_append (a b : String) : bytes (a ++ b) = bytes a ++ bytes b := by
  simp [bytes, String.data_append, List.flatMap_append]

/-- The JSON text of the dummy record, with the timestamp as its only variable part. -/
theorem encode_dummy (now : String) :
    ResponseData.encode
        { Status := "success", Challenge := "abc123xyz789", Timestamp := now,
          ExpiresIn := 300, SessionID := "12345-67890-abcde-fghij" } ++ "\n" =
      "\x7b\"status\":\"success\",\"challenge\":\"abc123xyz789\",\"timestamp\":"
        ++ jsonString now
        ++ ",\"expiresIn\":300,\"sessionId\":\"12345-67890-abcde-fghij\"\x7d\n" := by
  have hA : "\x7b\"status\":\"success\",\"challenge\":\"abc123xyz789\",\"timestamp\":" =
      "\x7b\"status\":" ++ jsonString "success" ++ ",\"challenge\":" ++
        jsonString "abc123xyz789" ++ ",\"timestamp\":" := by decide
  have hB : ",\"expiresIn\":300,\"sessionId\":\"12345-67890-abcde-fghij\"\x7d\n" =
      ",\"expiresIn\":" ++ formatInt 300 ++ ",\"sessionId\":" ++
        jsonString "12345-67890-abcde-fghij" ++ "\x7d" ++ "\n" := by decide
  rw [hA, hB]
  simp only [ResponseData.encode, String.append_assoc]

/-- A JSON text of a `ResponseData` begins with an opening brace. -/
theorem bytes_encode_head (d : ResponseData) :
    ∃ rest, bytes (d.encode ++ "\n") = 123 :: rest := by
  have h : "\x7b\"status\":" = "\x7b" ++ "\"status\":" := by decide
  refine ⟨bytes "\"status\":" ++ bytes (jsonString d.Status ++
    (",\"challenge\":" ++ (jsonString d.Challenge ++ (",\"timestamp\":" ++
    (jsonString d.Timestamp ++ (",\"expiresIn\":" ++ (formatInt d.ExpiresIn ++
    (",\"sessionId\":" ++ (jsonString d.SessionID ++ ("\x7d" ++ "\n")))))))))), ?_⟩
  simp only [ResponseData.encode, h, String.append_assoc]
  rw [bytes_append, bytes_append]
  rfl

/-- C8: `handleJSONBlob` on a fresh response answers 405 to every method but POST, whether
or not a JSON string is configured; 500 to a POST when the configured string is empty; and
otherwise 200 with `Content-Type` equal to the configured type and the configured string
as body, byte for byte, whatever the string is. -/
theorem handleJSONBlob_response (s : Server) (w : ResponseWriter) (r : Request)
    (jsonContent contentType : String) (hw : w.wroteHeader = false) (hb : w.body = []) :
    (r.Method ≠ MethodPost → (s.handleJSONBlob w r jsonContent contentType).code = 405) ∧
    (r.Method = MethodPost → jsonContent = "" →
      (s.handleJSONBlob w r jsonContent contentType).code = 500) ∧
    (r.Method = MethodPost → jsonContent ≠ "" →
      (s.handleJSONBlob w r jsonContent contentType).code = 200 ∧
      (s.handleJSONBlob w r jsonContent contentType).snapHeader.lookup "Content-Type"
        = some [contentType] ∧
      (s.handleJSONBlob w r jsonContent contentType).body = bytes jsonContent) := by
  refine ⟨fun hm => ?_, fun hm hj => ?_, fun hm hj => ?_⟩
  · have h : s.handleJSONBlob w r jsonContent contentType =
        httpError w "Method not allowed" StatusMethodNotAllowed := by
      simp [handleJSONBlob, hm]
    rw [h]
    exact (httpError_result w _ _ hw).1
  · have h : s.handleJSONBlob w r jsonContent contentType =
        httpError w "No JSON content configured" StatusInternalServerError := by
      simp [handleJSONBlob, hm, hj]
    rw [h]
    exact (httpError_result w _ _ hw).1
  · have h : s.handleJSONBlob w r jsonContent contentType =
        ((w.SetHeader "Content-Type" contentType).WriteHeader StatusOK).Write
          (bytes jsonContent) := by
      simp [handleJSONBlob, hm, hj]
    obtain ⟨h1, h2, h3, _⟩ := reply_result w contentType (bytes jsonContent) hw
    rw [h]
    refine ⟨h1, ?_, ?_⟩
    · rw [h3, Header.lookup_Set_same]
    · rw [h2, hb]; rfl

/-- Witness of C8: a GET, a POST without configured content, and a POST whose configured
content is not well-formed JSON. -/
theorem handleJSONBlob_response_witness :
    ResponseWriter.new.wroteHeader = false ∧ ResponseWriter.new.body = [] ∧
    (sampleRequest "GET" "").Method ≠ MethodPost ∧
    (sampleServer.handleJSONBlob ResponseWriter.new (sampleRequest "GET" "") ""
      "application/json").code = 405 ∧
    (sampleRequest "POST" "").Method = MethodPost ∧
    (sampleServer.handleJSONBlob ResponseWriter.new (sampleRequest "POST" "") ""
      "application/json").code = 500 ∧
    "not json" ≠ "" ∧
    (sampleServer.handleJSONBlob ResponseWriter.new (sampleRequest "POST" "") "not json"
      "application/json").body = bytes "not json" :=
  ⟨rfl, rfl, by decide,
    (handleJSONBlob_response sampleServer ResponseWriter.new (sampleRequest "GET" "") ""
      "application/json" rfl rfl).1 (by decide),
    rfl,
    (handleJSONBlob_response sampleServer ResponseWriter.new (sampleRequest "POST" "") ""
      "application/json" rfl rfl).2.1 rfl rfl,
    by decide,
    ((handleJSONBlob_response sampleServer ResponseWriter.new (sampleRequest "POST" "")
      "not json" "application/json" rfl rfl).2.2 rfl (by decide)).2.2⟩

/-- C9: `handleDummyResponse` on a fresh response answers a POST with status 200,
`Content-Type` equal to the configured type, and the JSON encoding, followed by a newline,
of the record with status "success", challenge "abc123xyz789", expiresIn 300, sessionId
"12345-67890-abcde-fghij" and the clock reading as timestamp; so the clock reading is the
only thing in which two POST responses differ.  Every other method is answered 405 with
the plain text error line as body, which is not such a JSON text. -/
theorem handleDummyResponse_response (s : Server) (now : String) (w : ResponseWriter)
    (r : Request) (contentType : String) (hw : w.wroteHeader = false) (hb : w.body = []) :
    (r.Method = MethodPost →
      (s.handleDummyResponse now w r contentType).code = 200 ∧
      (s.handleDummyResponse now w r contentType).snapHeader.lookup "Content-Type"
        = some [contentType] ∧
      (s.handleDummyResponse now w r contentType).body =
        bytes (ResponseData.encode
          { Status := "success", Challenge := "abc123xyz789", Timestamp := now,
            ExpiresIn := 300, SessionID := "12345-67890-abcde-fghij" } ++ "\n") ∧
      (s.handleDummyResponse now w r contentType).body =
        bytes ("\x7b\"status\":\"success\",\"challenge\":\"abc123xyz789\",\"timestamp\":"
          ++ jsonString now
          ++ ",\"expiresIn\":300,\"sessionId\":\"12345-67890-abcde-fghij\"\x7d\n") ∧
      ∀ (other : Server) (post : Request), post.Method = MethodPost →
        other.handleDummyResponse now w post contentType
          = s.handleDummyResponse now w r contentType) ∧
    (r.Method ≠ MethodPost →
      (s.handleDummyResponse now w r contentType).code = 405 ∧
      (s.handleDummyResponse now w r contentType).body = bytes "Method not allowed\n" ∧
      ∀ d : ResponseData,
        (s.handleDummyResponse now w r contentType).body ≠ bytes (d.encode ++ "\n")) := by
  refine ⟨fun hm => ?_, fun hm => ?_⟩
  · have h : ∀ (other : Server) (post : Request), post.Method = MethodPost →
        other.handleDummyResponse now w post contentType =
          ((w.SetHeader "Content-Type" contentType).WriteHeader StatusOK).Write
            (bytes (ResponseData.encode
              { Status := "success", Challenge := "abc123xyz789", Timestamp := now,
                ExpiresIn := 300, SessionID := "12345-67890-abcde-fghij" } ++ "\n")) := by
      intro other post hpost
      simp [handleDummyResponse, hpost]
    obtain ⟨h1, h2, h3, _⟩ := reply_result w contentType
      (bytes (ResponseData.encode
        { Status := "success", Challenge := "abc123xyz789", Timestamp := now,
          ExpiresIn := 300, SessionID := "12345-67890-abcde-fghij" } ++ "\n")) hw
    rw [h s r hm]
    refine ⟨h1, ?_, ?_, ?_, fun other post hpost => h other post hpost⟩
    · rw [h3, Header.lookup_Set_same]
    · rw [h2, hb]; rfl
    · rw [h2, hb, encode_dummy now]; rfl
  · have h : s.handleDummyResponse now w r contentType =
        httpError w "Method not allowed" StatusMethodNotAllowed := by
      simp [handleDummyResponse, hm]
    obtain ⟨h1, _, h3, _, _⟩ := httpError_result w "Method not allowed" StatusMethodNotAllowed hw
    have hbody : (httpError w "Method not allowed" StatusMethodNotAllowed).body
        = bytes "Method not allowed\n" := by
      rw [h3, hb]; rfl
    rw [h]
    refine ⟨h1, hbody, fun d hd => ?_⟩
    obtain ⟨rest, hrest⟩ := bytes_encode_head d
    have hM : bytes "Method not allowed\n" = 77 :: bytes "ethod not allowed\n" := by decide
    rw [hbody, hrest, hM] at hd
    exact absurd (List.cons.inj hd).1 (by decide)

/-- Witness of C9: a POST and a GET at one clock reading. -/
theorem handleDummyResponse_response_witness :
    ResponseWriter.new.wroteHeader = false ∧ ResponseWriter.new.body = [] ∧
    (sampleRequest "POST" "").Method = MethodPost ∧
    (sampleServer.handleDummyResponse "2024-05-01T10:00:00.5Z" ResponseWriter.new
      (sampleRequest "POST" "") "application/json").code = 200 ∧
    (sampleRequest "GET" "").Method ≠ MethodPost ∧
    (sampleServer.handleDummyResponse "2024-05-01T10:00:00.5Z" ResponseWriter.new
      (sampleRequest "GET" "") "application/json").code = 405 :=
  ⟨rfl, rfl, rfl,
    ((handleDummyResponse_response sampleServer "2024-05-01T10:00:00.5Z" ResponseWriter.new
      (sampleRequest "POST" "") "application/json" rfl rfl).1 rfl).1,
    by decide,
    ((handleDummyResponse_response sampleServer "2024-05-01T10:00:00.5Z" ResponseWriter.new
      (sampleRequest "GET" "") "application/json" rfl rfl).2 (by decide)).1⟩

/-! ## Content type resolution -/

theorem toLower_of_upper (c : Char) (h : 65 ≤ c.toNat ∧ c.toNat ≤ 90) :
    c.toLower.toNat = c.toNat + 32 := by
  have hc := Char.ofNat_toNat c
  generalize c.toNat = n at h hc
  subst hc
  obtain ⟨h1, h2⟩ := h
  interval_cases n <;> rfl

theorem toLower_of_not_upper (c : Char) (h : ¬ (65 ≤ c.toNat ∧ c.toNat ≤ 90)) :
    c.toLower = c := by
  simp only [Char.toLower]
  exact if_neg (by simpa using h)

/-- A rune below the capitals is the lower case form of itself only. -/
theorem toLower_eq_low (c x : Char) (hx : x.toNat < 65) : c.toLower = x ↔ c = x := by
  by_cases h : 65 ≤ c.toNat ∧ c.toNat ≤ 90
  · have h1 := toLower_of_upper c h
    constructor
    · intro he
      rw [he] at h1
      omega
    · intro he
      rw [he] at h
      omega
  · rw [toLower_of_not_upper c h]

/-- The case mapping of `strings.ToLower` sees a rune only through its ASCII lower case
form. -/
theorem toLowerRune_toLower (unicodeToLower : Char → Char) (c : Char) :
    toLowerRune unicodeToLower c.toLower = toLowerRune unicodeToLower c := by
  by_cases h : 65 ≤ c.toNat ∧ c.toNat ≤ 90
  · have h1 := toLower_of_upper c h
    have h2 : c.toLower.toLower = c.toLower :=
      toLower_of_not_upper _ (by omega)
    have h3 : c.toLower.val < 128 := by
      show c.toLower.toNat < 128
      omega
    have h4 : c.val < 128 := by
      show c.toNat < 128
      omega
    simp only [toLowerRune, if_pos h3, if_pos h4, h2]
  · rw [toLower_of_not_upper c h]

theorem map_toLowerRune_congr (unicodeToLower : Char → Char) (a b : List Char)
    (h : a.map Char.toLower = b.map Char.toLower) :
    a.map (toLowerRune unicodeToLower) = b.map (toLowerRune unicodeToLower) := by
  have key : ∀ l : List Char, l.map (toLowerRune unicodeToLower) =
      (l.map Char.toLower).map (toLowerRune unicodeToLower) := by
    intro l
    simp [List.map_map, Function.comp_def, toLowerRune_toLower]
  rw [key a, key b, h]

/-- The loop of `filepath.Ext` stops at the same place on two paths that differ in ASCII
letter case only, and what it returns differs in ASCII letter case only. -/
theorem extScan_congr (unicodeToLower : Char → Char) :
    ∀ (b b2 a a2 : List Char), b.map Char.toLower = b2.map Char.toLower →
      a.map Char.toLower = a2.map Char.toLower →
      ToLower unicodeToLower (extScan b a) = ToLower unicodeToLower (extScan b2 a2) := by
  intro b
  induction b with
  | nil =>
    intro b2 a a2 hb _
    cases b2 with
    | nil => rfl
    | cons c t => simp at hb
  | cons c t ih =>
    intro b2 a a2 hb ha
    cases b2 with
    | nil => simp at hb
    | cons c2 t2 =>
      simp only [List.map_cons, List.cons.injEq] at hb
      obtain ⟨hc, ht⟩ := hb
      have hslash : c = '/' ↔ c2 = '/' := by
        rw [← toLower_eq_low c '/' (by decide), ← toLower_eq_low c2 '/' (by decide), hc]
      have hdot : c = '.' ↔ c2 = '.' := by
        rw [← toLower_eq_low c '.' (by decide), ← toLower_eq_low c2 '.' (by decide), hc]
      by_cases h1 : c = '/'
      · have h2 := hslash.mp h1
        simp [extScan, IsPathSeparator, h1, h2]
      · have h2 : ¬ c2 = '/' := fun h => h1 (hslash.mpr h)
        by_cases h3 : c = '.'
        · have h4 := hdot.mp h3
          have hca : (c :: a).map Char.toLower = (c2 :: a2).map Char.toLower := by
            simp [hc, ha]
          have hmap := map_toLowerRune_congr unicodeToLower _ _ hca
          have e1 : extScan (c :: t) a = String.mk (c :: a) := by
            simp [extScan, IsPathSeparator, h3]
          have e2 : extScan (c2 :: t2) a2 = String.mk (c2 :: a2) := by
            simp [extScan, IsPathSeparator, h4]
          rw [e1, e2]
          simp only [ToLower]
          rw [hmap]
        · have h4 : ¬ c2 = '.' := fun h => h3 (hdot.mpr h)
          have hca : (c :: a).map Char.toLower = (c2 :: a2).map Char.toLower := by
            simp [hc, ha]
          have e1 : extScan (c :: t) a = extScan t (c :: a) := by
            simp [extScan, IsPathSeparator, h1, h3]
          have e2 : extScan (c2 :: t2) a2 = extScan t2 (c2 :: a2) := by
            simp [extScan, IsPathSeparator, h2, h4]
          rw [e1, e2]
          exact ih t2 (c :: a) (c2 :: a2) ht hca

theorem ToLower_Ext_congr (unicodeToLower : Char → Char) (p q : String)
    (h : p.data.map Char.toLower = q.data.map Char.toLower) :
    ToLower unicodeToLower (Ext p) = ToLower unicodeToLower (Ext q) := by
  apply extScan_congr unicodeToLower _ _ [] [] _ rfl
  rw [List.map_reverse, List.map_reverse, h]

/-- The loop of `filepath.Ext` returns the suffix that starts at the last dot of the last
path element, and the empty string when that element has no dot. -/
theorem extScan_result :
    ∀ (before after : List Char), '.' ∉ after → '/' ∉ after →
      (extScan before after = "" ∧
        ∀ pre suf, before.reverse ++ after = pre ++ suf → '/' ∉ suf → '.' ∉ suf) ∨
      (∃ pre rest, before.reverse ++ after = pre ++ '.' :: rest ∧
        extScan before after = String.mk ('.' :: rest) ∧ '.' ∉ rest ∧ '/' ∉ rest) := by
  intro before
  induction before with
  | nil =>
    intro after hdot _
    left
    refine ⟨rfl, fun pre suf h _ hmem => hdot ?_⟩
    simp only [List.reverse_nil, List.nil_append] at h
    rw [h]
    exact List.mem_append_right _ hmem
  | cons c t ih =>
    intro after hdot hslash
    have hl : (c :: t).reverse ++ after = t.reverse ++ c :: after := by simp
    by_cases h1 : c = '/'
    · left
      refine ⟨by simp [extScan, IsPathSeparator, h1], fun pre suf h hs hmem => ?_⟩
      rw [hl, List.append_eq_append_iff] at h
      rcases h with ⟨m, _, hm⟩ | ⟨m, _, hm⟩
      · cases m with
        | nil =>
          simp only [List.nil_append] at hm
          rw [← hm, h1] at hs
          exact hs (List.mem_cons_self _ _)
        | cons x m2 =>
          simp only [List.cons_append, List.cons.injEq] at hm
          apply hdot
          rw [hm.2]
          exact List.mem_append_right _ hmem
      · apply hs
        rw [hm, h1]
        exact List.mem_append_right _ (List.mem_cons_self _ _)
    · by_cases h3 : c = '.'
      · right
        refine ⟨t.reverse, after, by rw [hl, h3], ?_, hdot, hslash⟩
        simp [extScan, IsPathSeparator, h3]
      · have hdot2 : '.' ∉ c :: after := by
          simp only [List.mem_cons, not_or]
          exact ⟨fun h => h3 h.symm, hdot⟩
        have hslash2 : '/' ∉ c :: after := by
          simp only [List.mem_cons, not_or]
          exact ⟨fun h => h1 h.symm, hslash⟩
        have hstep : extScan (c :: t) after = extScan t (c :: after) := by
          simp [extScan, IsPathSeparator, h1, h3]
        rw [hl, hstep]
        exact ih (c :: after) hdot2 hslash2

/-- C10: `getContentTypeFromFile` returns, for every path, the type the documented table
gives for the lower-cased extension of the path, and `application/octet-stream` when the
table has no row for it, in particular when there is no extension.  The extension is the
suffix of the path that starts at the last dot of the last path element (empty when that
element has no dot).  Two paths that differ only in the case of ASCII letters get the same
type. -/
theorem getContentTypeFromFile_documented (s : Server) (unicodeToLower : Char → Char)
    (filePath : String) :
    (∀ e t, (e, t) ∈ documentedTypes → ToLower unicodeToLower (Ext filePath) = e →
      s.getContentTypeFromFile unicodeToLower filePath = t) ∧
    ((∀ e t, (e, t) ∈ documentedTypes → ToLower unicodeToLower (Ext filePath) ≠ e) →
      s.getContentTypeFromFile unicodeToLower filePath = "application/octet-stream") ∧
    (Ext filePath = "" →
      s.getContentTypeFromFile unicodeToLower filePath = "application/octet-stream") ∧
    ((Ext filePath = "" ∧
        ∀ pre suf, filePath.data = pre ++ suf → '/' ∉ suf → '.' ∉ suf) ∨
      (∃ pre rest, filePath.data = pre ++ '.' :: rest ∧
        Ext filePath = String.mk ('.' :: rest) ∧ '.' ∉ rest ∧ '/' ∉ rest)) ∧
    (∀ other : String, other.data.map Char.toLower = filePath.data.map Char.toLower →
      s.getContentTypeFromFile unicodeToLower other
        = s.getContentTypeFromFile unicodeToLower filePath) := by
  refine ⟨fun e t hmem hext => ?_, fun h => ?_, fun hext => ?_, ?_, fun other hother => ?_⟩
  · simp only [documentedTypes, List.mem_cons, Prod.mk.injEq, List.mem_singleton,
      List.not_mem_nil, or_false] at hmem
    rcases hmem with h | h | h | h | h | h | h | h | h | h | h | h | h <;>
      obtain ⟨rfl, rfl⟩ := h <;>
      simp [getContentTypeFromFile, hext]
  · have h0 := h ".html" "text/html" (by decide)
    have h1 := h ".htm" "text/html" (by decide)
    have h2 := h ".css" "text/css" (by decide)
    have h3 := h ".js" "application/javascript" (by decide)
    have h4 := h ".json" "application/json" (by decide)
    have h5 := h ".xml" "application/xml" (by decide)
    have h6 := h ".txt" "text/plain" (by decide)
    have h7 := h ".png" "image/png" (by decide)
    have h8 := h ".jpg" "image/jpeg" (by decide)
    have h9 := h ".jpeg" "image/jpeg" (by decide)
    have h10 := h ".gif" "image/gif" (by decide)
    have h11 := h ".svg" "image/svg+xml" (by decide)
    have h12 := h ".pdf" "application/pdf" (by decide)
    simp [getContentTypeFromFile, h0, h1, h2, h3, h4, h5, h6, h7, h8, h9, h10, h11, h12]
  · have hlow : ToLower unicodeToLower (Ext filePath) = "" := by
      rw [hext]; rfl
    simp [getContentTypeFromFile, hlow]
  · have h := extScan_result filePath.data.reverse [] (List.not_mem_nil _) (List.not_mem_nil _)
    simpa [Ext] using h
  · have h := ToLower_Ext_congr unicodeToLower other filePath hother
    simp only [getContentTypeFromFile, h]

/-- Witness of C10: `a.HTML` and `a.html` are both `text/html`, a path without extension is
`application/octet-stream`. -/
theorem getContentTypeFromFile_documented_witness :
    (".html", "text/html") ∈ documentedTypes ∧
    ToLower sampleUnicodeToLower (Ext "a.HTML") = ".html" ∧
    sampleServer.getContentTypeFromFile sampleUnicodeToLower "a.HTML" = "text/html" ∧
    "a.html".data.map Char.toLower = "a.HTML".data.map Char.toLower ∧
    sampleServer.getContentTypeFromFile sampleUnicodeToLower "a.html"
      = sampleServer.getContentTypeFromFile sampleUnicodeToLower "a.HTML" ∧
    Ext "srv.d/readme" = "" ∧
    sampleServer.getContentTypeFromFile sampleUnicodeToLower "srv.d/readme"
      = "application/octet-stream" :=
  ⟨by decide, by decide,
    (getContentTypeFromFile_documented sampleServer sampleUnicodeToLower "a.HTML").1
      ".html" "text/html" (by decide) (by decide),
    by decide,
    (getContentTypeFromFile_documented sampleServer sampleUnicodeToLower "a.HTML").2.2.2.2
      "a.html" (by decide),
    by decide,
    (getContentTypeFromFile_documented sampleServer sampleUnicodeToLower "srv.d/readme").2.2.1
      (by decide)⟩

/-! ## Headers that are always set, and the join of a list -/

theorem Header.lookup_Del_ne (h : Header) (key other : String) (hne : other ≠ key) :
    (h.Del other).lookup key = h.lookup key := by
  obtain ⟨l⟩ := h
  simp only [Header.Del, Header.lookup]
  induction l with
  | nil => rfl
  | cons e rest ih =>
    obtain ⟨k, vs⟩ := e
    by_cases hk : k = other
    · subst hk
      have hf : List.filter (fun e => decide (e.1 ≠ k)) ((k, vs) :: rest)
          = List.filter (fun e => decide (e.1 ≠ k)) rest := by
        simp [List.filter_cons]
      rw [hf, ih]
      simp [Header.find, hne]
    · have hf : List.filter (fun e => decide (e.1 ≠ other)) ((k, vs) :: rest)
          = (k, vs) :: List.filter (fun e => decide (e.1 ≠ other)) rest := by
        simp [List.filter_cons, hk]
      rw [hf]
      simp only [Header.find]
      rw [ih]

/-- The keys `setCORSHeaders` sets on every call, and the two it sets under a condition,
on any writer. -/
theorem setCORSHeaders_values (s : Server) (routeCORS : Option CORSConfig) (r : Request)
    (w : ResponseWriter) :
    ((s.setCORSHeaders w r routeCORS).header.lookup "Access-Control-Allow-Methods" =
      some [joinStrings (routeCORS.getD s.config.CORS).AllowMethods]) ∧
    ((s.setCORSHeaders w r routeCORS).header.lookup "Access-Control-Allow-Headers" =
      some [joinStrings (routeCORS.getD s.config.CORS).AllowHeaders]) ∧
    ((s.setCORSHeaders w r routeCORS).header.lookup "Access-Control-Max-Age" =
      some [formatInt (routeCORS.getD s.config.CORS).MaxAge]) ∧
    (r.Header.Get "Origin" ≠ "" ∧
        (r.Header.Get "Origin" ∈ (routeCORS.getD s.config.CORS).AllowOrigins ∨
          "*" ∈ (routeCORS.getD s.config.CORS).AllowOrigins) →
      (s.setCORSHeaders w r routeCORS).header.lookup "Access-Control-Allow-Origin" =
        some [r.Header.Get "Origin"]) ∧
    ((routeCORS.getD s.config.CORS).AllowCredentials = true →
      (s.setCORSHeaders w r routeCORS).header.lookup "Access-Control-Allow-Credentials" =
        some ["true"]) := by
  simp only [setCORSHeaders, setCORSHeaders_policy]
  generalize routeCORS.getD s.config.CORS = cors
  simp only [ResponseWriter.SetHeader]
  refine ⟨?_, ?_, ?_, ?_, ?_⟩ <;> split_ifs <;>
    simp_all [Header.lookup_Set_ne, Header.lookup_Set_same, contains_iff_mem]

/-- The loop of `joinStrings` past its first round is the loop of `String.intercalate`. -/
theorem joinStringsLoop_eq_go (rest : List String) :
    ∀ (i : Nat) (result : String), 0 < i →
      joinStringsLoop i result rest = String.intercalate.go result ", " rest := by
  induction rest with
  | nil => intro i result _; rfl
  | cons x rest ih =>
    intro i result hi
    simp only [joinStringsLoop, String.intercalate.go, gt_iff_lt, hi, if_true]
    exact ih (i + 1) _ (Nat.succ_pos i)

theorem joinStrings_eq_intercalate (slice : List String) :
    joinStrings slice = ", ".intercalate slice := by
  cases slice with
  | nil => rfl
  | cons x rest =>
    simp only [joinStrings, joinStringsLoop, String.intercalate, gt_iff_lt, Nat.lt_irrefl,
      if_false, String.empty_append]
    exact joinStringsLoop_eq_go rest 1 x Nat.one_pos

/-- A text put in front of the result built so far comes out in front of the join. -/
theorem intercalate_go_append (rest : List String) :
    ∀ (front result : String),
      String.intercalate.go (front ++ result) ", " rest
        = front ++ String.intercalate.go result ", " rest := by
  induction rest with
  | nil => intro front result; rfl
  | cons x rest ih =>
    intro front result
    simp only [String.intercalate.go]
    rw [← ih front (result ++ ", " ++ x)]
    simp only [String.append_assoc]

/-- C13: on every writer and for every request, `setCORSHeaders` leaves
`Access-Control-Allow-Methods`, `Access-Control-Allow-Headers` and `Access-Control-Max-Age`
present, with the join of AllowMethods, the join of AllowHeaders and the decimal text of
MaxAge as values.  `joinStrings` is the standard join with the separator `", "`: the empty
string for the empty list, the element for a list of one, and no separator in front or at
the end. -/
theorem setCORSHeaders_always_set (s : Server) (routeCORS : Option CORSConfig) (r : Request)
    (w : ResponseWriter) :
    ((s.setCORSHeaders w r routeCORS).header.lookup "Access-Control-Allow-Methods" =
      some [", ".intercalate (routeCORS.getD s.config.CORS).AllowMethods]) ∧
    ((s.setCORSHeaders w r routeCORS).header.lookup "Access-Control-Allow-Headers" =
      some [", ".intercalate (routeCORS.getD s.config.CORS).AllowHeaders]) ∧
    ((s.setCORSHeaders w r routeCORS).header.lookup "Access-Control-Max-Age" =
      some [formatInt (routeCORS.getD s.config.CORS).MaxAge]) ∧
    (∀ n : Nat, formatInt (Int.ofNat n) = Nat.repr n) ∧
    (∀ n : Nat, formatInt (Int.negSucc n) = "-" ++ Nat.repr (n + 1)) ∧
    (∀ xs : List String, joinStrings xs = ", ".intercalate xs) ∧
    joinStrings [] = "" ∧
    (∀ x : String, joinStrings [x] = x) ∧
    (∀ (x y : String) (rest : List String),
      joinStrings (x :: y :: rest) = x ++ ", " ++ joinStrings (y :: rest)) := by
  obtain ⟨h1, h2, h3, _, _⟩ := setCORSHeaders_values s routeCORS r w
  refine ⟨?_, ?_, h3, fun n => rfl, fun n => rfl, joinStrings_eq_intercalate, rfl,
    fun x => rfl, fun x y rest => ?_⟩
  · rw [h1, joinStrings_eq_intercalate]
  · rw [h2, joinStrings_eq_intercalate]
  · rw [joinStrings_eq_intercalate, joinStrings_eq_intercalate]
    simp only [String.intercalate, String.intercalate.go]
    rw [← intercalate_go_append rest (x ++ ", ") y, String.append_assoc]

/-! ## CORS headers across methods and outcomes -/

/-- The request enters `setCORSHeaders` through its `Origin` value only. -/
theorem setCORSHeaders_origin_congr (s : Server) (routeCORS : Option CORSConfig)
    (w : ResponseWriter) (r1 r2 : Request)
    (h : r1.Header.Get "Origin" = r2.Header.Get "Origin") :
    s.setCORSHeaders w r1 routeCORS = s.setCORSHeaders w r2 routeCORS := by
  simp only [setCORSHeaders, h]

/-- A key of the CORS family is none of the keys a route behaviour writes. -/
theorem isCORSHeader_ne (key : String) (h : isCORSHeader key = true) :
    "Content-Length" ≠ key ∧ "Content-Type" ≠ key ∧ "X-Content-Type-Options" ≠ key := by
  refine ⟨?_, ?_, ?_⟩ <;> intro he <;> subst he <;> revert h <;> decide

/-- The headers sent by `http.Error` hold, under a key it does not write, what the writer
held before. -/
theorem httpError_keeps (w : ResponseWriter) (error : String) (code : Nat) (key : String)
    (hw : w.wroteHeader = false) (h1 : "Content-Length" ≠ key) (h2 : "Content-Type" ≠ key)
    (h3 : "X-Content-Type-Options" ≠ key) :
    (httpError w error code).snapHeader.lookup key = w.header.lookup key := by
  obtain ⟨_, _, _, h4, h5⟩ := httpError_result w error code hw
  rw [h4, h5, Header.lookup_Set_ne _ _ _ _ h3, Header.lookup_Set_ne _ _ _ _ h2,
    Header.lookup_Del_ne _ _ _ h1]

/-- The headers sent with a reply of a route behaviour hold, under a key other than
`Content-Type`, what the writer held before. -/
theorem reply_keeps (w : ResponseWriter) (contentType : String) (b : List UInt8)
    (key : String) (hw : w.wroteHeader = false) (h2 : "Content-Type" ≠ key) :
    (((w.SetHeader "Content-Type" contentType).WriteHeader StatusOK).Write b).snapHeader.lookup
        key = w.header.lookup key ∧
    ((w.SetHeader "Content-Type" contentType).WriteHeader StatusOK).snapHeader.lookup key
      = w.header.lookup key := by
  obtain ⟨_, _, h3, _⟩ := reply_result w contentType b hw
  refine ⟨by rw [h3, Header.lookup_Set_ne _ _ _ _ h2], ?_⟩
  simp [ResponseWriter.WriteHeader, ResponseWriter.SetHeader, hw,
    Header.lookup_Set_ne _ _ _ _ h2]

/-- The handler of a route sends, under every key of the CORS family, what
`setCORSHeaders` put there, whatever the method and whatever the behaviour answers. -/
theorem routeHandler_keeps (s : Server) (routeCORS : Option CORSConfig)
    (routeType filePath jsonContent contentType : String) (fs : FileSystem) (now : String)
    (w : ResponseWriter) (r : Request) (key : String) (hw : w.wroteHeader = false)
    (hkey : isCORSHeader key = true) :
    (s.routeHandler routeCORS routeType filePath jsonContent contentType fs now w r).1.snapHeader.lookup
      key = (s.setCORSHeaders w r routeCORS).header.lookup key := by
  obtain ⟨h1, h2, h3⟩ := isCORSHeader_ne key hkey
  have hc : (s.setCORSHeaders w r routeCORS).wroteHeader = false := by
    rw [(setCORSHeaders_frame s routeCORS r w).1, hw]
  simp only [routeHandler]
  generalize s.setCORSHeaders w r routeCORS = v at hc ⊢
  split_ifs with hopt hstatic hjson hdummy
  · simp [ResponseWriter.WriteHeader, hc]
  · simp only [handleStaticFile]
    cases hopen : fs.Open filePath <;> simp only [] <;> split_ifs <;>
      first
      | exact httpError_keeps v _ _ key hc h1 h2 h3
      | exact (reply_keeps v contentType _ key hc h2).1
      | exact (reply_keeps v contentType [] key hc h2).2
  · simp only [handleJSONBlob]
    split_ifs
    · exact httpError_keeps v _ _ key hc h1 h2 h3
    · exact httpError_keeps v _ _ key hc h1 h2 h3
    · exact (reply_keeps v contentType _ key hc h2).1
  · simp only [handleDummyResponse]
    split_ifs
    · exact httpError_keeps v _ _ key hc h1 h2 h3
    · exact (reply_keeps v contentType _ key hc h2).1
  · simp only [handleDummyResponse]
    split_ifs
    · exact httpError_keeps v _ _ key hc h1 h2 h3
    · exact (reply_keeps v contentType _ key hc h2).1

/-- C14: the CORS headers of a route do not depend on the method nor on how the dispatch
ends.  For one route and two requests with the same Origin, whatever their methods, the
file systems and the clock readings, the two responses of the route's handler hold the
same value, or both none, under every key that begins with `Access-Control-`: the one
`setCORSHeaders` put there. -/
theorem routeHandler_cors_method_independent (s : Server) (routeCORS : Option CORSConfig)
    (routeType filePath jsonContent contentType : String) (fs1 fs2 : FileSystem)
    (now1 now2 : String) (w : ResponseWriter) (r1 r2 : Request) (key : String)
    (hw : w.wroteHeader = false)
    (horigin : r1.Header.Get "Origin" = r2.Header.Get "Origin")
    (hkey : isCORSHeader key = true) :
    (s.routeHandler routeCORS routeType filePath jsonContent contentType fs1 now1 w
        r1).1.snapHeader.lookup key =
      (s.routeHandler routeCORS routeType filePath jsonContent contentType fs2 now2 w
        r2).1.snapHeader.lookup key ∧
    (s.routeHandler routeCORS routeType filePath jsonContent contentType fs1 now1 w
        r1).1.snapHeader.lookup key = (s.setCORSHeaders w r1 routeCORS).header.lookup key := by
  have e1 := routeHandler_keeps s routeCORS routeType filePath jsonContent contentType fs1
    now1 w r1 key hw hkey
  have e2 := routeHandler_keeps s routeCORS routeType filePath jsonContent contentType fs2
    now2 w r2 key hw hkey
  refine ⟨?_, e1⟩
  rw [e1, e2, setCORSHeaders_origin_congr s routeCORS w r1 r2 horigin]

/-- Witness of C14: an OPTIONS request and a GET that a dummy route rejects with 405 carry
the same `Access-Control-Allow-Origin`. -/
theorem routeHandler_cors_method_independent_witness :
    ResponseWriter.new.wroteHeader = false ∧
    (sampleRequest "OPTIONS" "https://example.com").Header.Get "Origin"
      = (sampleRequest "GET" "https://example.com").Header.Get "Origin" ∧
    isCORSHeader "Access-Control-Allow-Origin" = true ∧
    (sampleServer.routeHandler none "dummy" "" "" "application/json" sampleFS "t1"
      ResponseWriter.new (sampleRequest "GET" "https://example.com")).1.code = 405 ∧
    (sampleServer.routeHandler none "dummy" "" "" "application/json" sampleFS "t1"
        ResponseWriter.new (sampleRequest "OPTIONS" "https://example.com")).1.snapHeader.lookup
        "Access-Control-Allow-Origin" =
      (sampleServer.routeHandler none "dummy" "" "" "application/json" sampleFS "t2"
        ResponseWriter.new (sampleRequest "GET" "https://example.com")).1.snapHeader.lookup
        "Access-Control-Allow-Origin" :=
  ⟨rfl, rfl, by decide, by decide,
    (routeHandler_cors_method_independent sampleServer none "dummy" "" "" "application/json"
      sampleFS sampleFS "t1" "t2" ResponseWriter.new
      (sampleRequest "OPTIONS" "https://example.com")
      (sampleRequest "GET" "https://example.com") "Access-Control-Allow-Origin"
      rfl rfl (by decide)).1⟩

/-- C15: a policy with the wildcard origin and AllowCredentials true is passed through as
it is.  For every request with a non-empty Origin, `setCORSHeaders` sets
`Access-Control-Allow-Origin` to that Origin and `Access-Control-Allow-Credentials` to
"true" together; the CORS policy of `DefaultConfig` is such a policy. -/
theorem setCORSHeaders_wildcard_credentials (s : Server) (routeCORS : Option CORSConfig)
    (r : Request) (w : ResponseWriter)
    (hstar : "*" ∈ (routeCORS.getD s.config.CORS).AllowOrigins)
    (hcred : (routeCORS.getD s.config.CORS).AllowCredentials = true)
    (horigin : r.Header.Get "Origin" ≠ "") :
    ((s.setCORSHeaders w r routeCORS).header.lookup "Access-Control-Allow-Origin"
        = some [r.Header.Get "Origin"] ∧
      (s.setCORSHeaders w r routeCORS).header.lookup "Access-Control-Allow-Credentials"
        = some ["true"]) ∧
    ("*" ∈ DefaultConfig.CORS.AllowOrigins ∧ DefaultConfig.CORS.AllowCredentials = true) ∧
    (((New DefaultConfig).setCORSHeaders w r none).header.lookup "Access-Control-Allow-Origin"
        = some [r.Header.Get "Origin"] ∧
      ((New DefaultConfig).setCORSHeaders w r none).header.lookup
        "Access-Control-Allow-Credentials" = some ["true"]) := by
  obtain ⟨_, _, _, h4, h5⟩ := setCORSHeaders_values s routeCORS r w
  obtain ⟨_, _, _, d4, d5⟩ := setCORSHeaders_values (New DefaultConfig) none r w
  have hd : "*" ∈ DefaultConfig.CORS.AllowOrigins ∧ DefaultConfig.CORS.AllowCredentials = true :=
    by decide
  exact ⟨⟨h4 ⟨horigin, Or.inr hstar⟩, h5 hcred⟩, hd,
    d4 ⟨horigin, Or.inr hd.1⟩, d5 hd.2⟩

/-- Witness of C15: the default policy and the origin `https://example.com`. -/
theorem setCORSHeaders_wildcard_credentials_witness :
    "*" ∈ ((none : Option CORSConfig).getD sampleServer.config.CORS).AllowOrigins ∧
    ((none : Option CORSConfig).getD sampleServer.config.CORS).AllowCredentials = true ∧
    (sampleRequest "GET" "https://example.com").Header.Get "Origin" ≠ "" ∧
    (sampleServer.setCORSHeaders ResponseWriter.new (sampleRequest "GET" "https://example.com")
        none).header.lookup "Access-Control-Allow-Origin" = some ["https://example.com"] ∧
    (sampleServer.setCORSHeaders ResponseWriter.new (sampleRequest "GET" "https://example.com")
        none).header.lookup "Access-Control-Allow-Credentials" = some ["true"] :=
  ⟨by decide, by decide, by decide,
    (setCORSHeaders_wildcard_credentials sampleServer none
      (sampleRequest "GET" "https://example.com") ResponseWriter.new
      (by decide) (by decide) (by decide)).1⟩

/-! ## Content type defaulting and unrecognized route types -/

/-- What the handler of a route does with a request that is not a preflight: it runs the
behaviour of the route type on the writer `setCORSHeaders` returns, with the captured
content type. -/
theorem routeHandler_dispatch (s : Server) (routeCORS : Option CORSConfig)
    (routeType filePath jsonContent contentType : String) (fs : FileSystem) (now : String)
    (w : ResponseWriter) (r : Request) (hm : r.Method ≠ MethodOptions) :
    s.routeHandler routeCORS routeType filePath jsonContent contentType fs now w r =
      if routeType = "static" then
        s.handleStaticFile fs (s.setCORSHeaders w r routeCORS) r filePath contentType
      else if routeType = "json" then
        (s.handleJSONBlob (s.setCORSHeaders w r routeCORS) r jsonContent contentType, [])
      else
        (s.handleDummyResponse now (s.setCORSHeaders w r routeCORS) r contentType, []) := by
  simp only [routeHandler, if_neg hm]
  split_ifs <;> rfl

/-- A response of a route behaviour with status 200 carries the content type the behaviour
was given. -/
theorem routeHandler_content_type (s : Server) (routeCORS : Option CORSConfig)
    (routeType filePath jsonContent contentType : String) (fs : FileSystem) (now : String)
    (w : ResponseWriter) (r : Request) (hw : w.wroteHeader = false)
    (hm : r.Method ≠ MethodOptions)
    (hcode : (s.routeHandler routeCORS routeType filePath jsonContent contentType fs now w
      r).1.code = 200) :
    (s.routeHandler routeCORS routeType filePath jsonContent contentType fs now w
      r).1.snapHeader.lookup "Content-Type" = some [contentType] := by
  have hc : (s.setCORSHeaders w r routeCORS).wroteHeader = false := by
    rw [(setCORSHeaders_frame s routeCORS r w).1, hw]
  revert hcode
  rw [routeHandler_dispatch s routeCORS routeType filePath jsonContent contentType fs now w r hm]
  generalize s.setCORSHeaders w r routeCORS = v at hc ⊢
  have herr : ∀ (error : String) (code : Nat), code ≠ 200 →
      (httpError v error code).code = 200 →
      (httpError v error code).snapHeader.lookup "Content-Type" = some [contentType] := by
    intro error code hne h
    rw [(httpError_result v error code hc).1] at h
    exact absurd h hne
  have hok : ∀ b : List UInt8,
      (((v.SetHeader "Content-Type" contentType).WriteHeader StatusOK).Write b).snapHeader.lookup
        "Content-Type" = some [contentType] := by
    intro b
    rw [(reply_result v contentType b hc).2.2.1, Header.lookup_Set_same]
  have hhead : ((v.SetHeader "Content-Type" contentType).WriteHeader StatusOK).snapHeader.lookup
      "Content-Type" = some [contentType] := by
    simp [ResponseWriter.WriteHeader, ResponseWriter.SetHeader, hc, Header.lookup_Set_same]
  split_ifs
  · simp only [handleStaticFile]
    cases hopen : fs.Open filePath <;> simp only [] <;> split_ifs <;>
      first
      | exact herr _ _ (by decide)
      | exact fun _ => hok _
      | exact fun _ => hhead
  · simp only [handleJSONBlob]
    split_ifs <;>
      first
      | exact herr _ _ (by decide)
      | exact fun _ => hok _
  · simp only [handleDummyResponse]
    split_ifs <;>
      first
      | exact herr _ _ (by decide)
      | exact fun _ => hok _

/-- C11: the content type `setupRoutes` settles for a route is the route's ContentType
when that is not empty, whatever the type and the file extension; otherwise
`getContentTypeFromFile` of the FilePath when the type is "static"; otherwise
`application/json`, for "json", "dummy" and every other type, the empty one included.  The
handler registered for the route hands this content type to the behaviour it runs, and a
response of the behaviour with status 200 has it as `Content-Type`. -/
theorem routeContentType_defaulting (s : Server) (unicodeToLower : Char → Char)
    (route : Route) :
    (route.ContentType ≠ "" → s.routeContentType unicodeToLower route = route.ContentType) ∧
    (route.ContentType = "" → route.Type_ = "static" →
      s.routeContentType unicodeToLower route
        = s.getContentTypeFromFile unicodeToLower route.FilePath) ∧
    (route.ContentType = "" → route.Type_ ≠ "static" →
      s.routeContentType unicodeToLower route = "application/json") ∧
    ((s.setupRoutes unicodeToLower).mux.entries =
      s.mux.entries ++ s.config.Routes.map (fun route =>
        (route.Path, s.routeHandler route.CORS route.Type_ route.FilePath route.JSONContent
          (s.routeContentType unicodeToLower route)))) ∧
    (∀ (fs : FileSystem) (now : String) (w : ResponseWriter) (r : Request),
      r.Method ≠ MethodOptions →
      s.routeHandler route.CORS route.Type_ route.FilePath route.JSONContent
          (s.routeContentType unicodeToLower route) fs now w r =
        if route.Type_ = "static" then
          s.handleStaticFile fs (s.setCORSHeaders w r route.CORS) r route.FilePath
            (s.routeContentType unicodeToLower route)
        else if route.Type_ = "json" then
          (s.handleJSONBlob (s.setCORSHeaders w r route.CORS) r route.JSONContent
            (s.routeContentType unicodeToLower route), [])
        else
          (s.handleDummyResponse now (s.setCORSHeaders w r route.CORS) r
            (s.routeContentType unicodeToLower route), [])) ∧
    (∀ (fs : FileSystem) (now : String) (w : ResponseWriter) (r : Request),
      w.wroteHeader = false → r.Method ≠ MethodOptions →
      (s.routeHandler route.CORS route.Type_ route.FilePath route.JSONContent
        (s.routeContentType unicodeToLower route) fs now w r).1.code = 200 →
      (s.routeHandler route.CORS route.Type_ route.FilePath route.JSONContent
        (s.routeContentType unicodeToLower route) fs now w r).1.snapHeader.lookup "Content-Type"
        = some [s.routeContentType unicodeToLower route]) := by
  refine ⟨fun h => ?_, fun h ht => ?_, fun h ht => ?_, setupRoutes_entries s unicodeToLower,
    fun fs now w r hm => routeHandler_dispatch s _ _ _ _ _ fs now w r hm,
    fun fs now w r hw hm hcode => routeHandler_content_type s _ _ _ _ _ fs now w r hw hm hcode⟩
  · simp [routeContentType, h]
  · simp [routeContentType, h, ht]
  · simp [routeContentType, h, ht]

/-- Witness of C11: a static route without content type gets the type of its file, a route
of a misspelt type gets `application/json`, and a configured content type wins. -/
theorem routeContentType_defaulting_witness :
    sampleServer.routeContentType sampleUnicodeToLower
      { Path := "/", Type_ := "static", FilePath := "/srv/index.html", JSONContent := "",
        ContentType := "", CORS := none } = "text/html" ∧
    sampleServer.routeContentType sampleUnicodeToLower
      { Path := "/", Type_ := "Static", FilePath := "/srv/index.html", JSONContent := "",
        ContentType := "", CORS := none } = "application/json" ∧
    sampleServer.routeContentType sampleUnicodeToLower
      { Path := "/", Type_ := "static", FilePath := "/srv/index.html", JSONContent := "",
        ContentType := "text/plain", CORS := none } = "text/plain" ∧
    (sampleServer.routeHandler none "static" "/srv/index.html" "" "text/plain" sampleFS "t"
      ResponseWriter.new (sampleRequest "GET" "")).1.snapHeader.lookup "Content-Type"
      = some ["text/plain"] := by
  refine ⟨?_, ?_, ?_, ?_⟩
  · exact ((routeContentType_defaulting sampleServer sampleUnicodeToLower
      { Path := "/", Type_ := "static", FilePath := "/srv/index.html", JSONContent := "",
        ContentType := "", CORS := none }).2.1 rfl rfl).trans (by decide)
  · exact (routeContentType_defaulting sampleServer sampleUnicodeToLower
      { Path := "/", Type_ := "Static", FilePath := "/srv/index.html", JSONContent := "",
        ContentType := "", CORS := none }).2.2.1 rfl (by decide)
  · exact (routeContentType_defaulting sampleServer sampleUnicodeToLower
      { Path := "/", Type_ := "static", FilePath := "/srv/index.html", JSONContent := "",
        ContentType := "text/plain", CORS := none }).1 (by decide)
  · exact (routeContentType_defaulting sampleServer sampleUnicodeToLower
      { Path := "/", Type_ := "static", FilePath := "/srv/index.html", JSONContent := "",
        ContentType := "text/plain", CORS := none }).2.2.2.2.2 sampleFS "t"
      ResponseWriter.new (sampleRequest "GET" "") rfl (by decide) (by decide)

/-- C16: a route whose type is none of "static", "json" and "dummy" behaves as a dummy
route.  Its handler is the handler of the route with the type set to "dummy", so the two
give the same response to every request at every clock reading and file system; the
registration is the same; and FilePath and JSONContent play no part, since the handler
stays the same when they are replaced. -/
theorem routeHandler_unrecognized_type (s : Server) (unicodeToLower : Char → Char)
    (route : Route) (hstatic : route.Type_ ≠ "static") (hjson : route.Type_ ≠ "json")
    (hdummy : route.Type_ ≠ "dummy") :
    (∀ (fs : FileSystem) (now : String) (w : ResponseWriter) (r : Request),
      s.routeHandler route.CORS route.Type_ route.FilePath route.JSONContent
          (s.routeContentType unicodeToLower route) fs now w r =
        s.routeHandler route.CORS "dummy" route.FilePath route.JSONContent
          (s.routeContentType unicodeToLower { route with Type_ := "dummy" }) fs now w r) ∧
    (∀ mux : ServeMux,
      s.bindRoute unicodeToLower mux route
        = s.bindRoute unicodeToLower mux { route with Type_ := "dummy" }) ∧
    (∀ (filePath jsonContent : String) (fs : FileSystem) (now : String) (w : ResponseWriter)
        (r : Request),
      s.routeHandler route.CORS route.Type_ route.FilePath route.JSONContent
          (s.routeContentType unicodeToLower route) fs now w r =
        s.routeHandler route.CORS "dummy" filePath jsonContent
          (s.routeContentType unicodeToLower
            { route with Type_ := "dummy", FilePath := filePath, JSONContent := jsonContent })
          fs now w r) := by
  have hct : ∀ filePath jsonContent : String,
      s.routeContentType unicodeToLower
          { route with Type_ := "dummy", FilePath := filePath, JSONContent := jsonContent }
        = s.routeContentType unicodeToLower route := by
    intro filePath jsonContent
    by_cases h : route.ContentType = "" <;> simp [routeContentType, h, hstatic]
  have hh : ∀ (filePath jsonContent contentType : String),
      s.routeHandler route.CORS route.Type_ route.FilePath route.JSONContent contentType
        = s.routeHandler route.CORS "dummy" filePath jsonContent contentType := by
    intro filePath jsonContent contentType
    funext fs now w r
    simp [routeHandler, hstatic, hjson, hdummy]
  refine ⟨fun fs now w r => ?_, fun mux => ?_, fun filePath jsonContent fs now w r => ?_⟩
  · rw [hct route.FilePath route.JSONContent,
      hh route.FilePath route.JSONContent]
  · simp only [bindRoute]
    rw [hct route.FilePath route.JSONContent, hh route.FilePath route.JSONContent]
  · rw [hct filePath jsonContent, hh filePath jsonContent]

/-- Witness of C16: the misspelt type "Static" answers a POST as a dummy route does. -/
theorem routeHandler_unrecognized_type_witness :
    ("Static" : String) ≠ "static" ∧ ("Static" : String) ≠ "json" ∧
    ("Static" : String) ≠ "dummy" ∧
    (sampleServer.routeHandler none "Static" "/srv/index.html" "" "application/json" sampleFS
      "t" ResponseWriter.new (sampleRequest "POST" "")).1.code = 200 := by
  have h := (routeHandler_unrecognized_type sampleServer sampleUnicodeToLower
    { Path := "/", Type_ := "Static", FilePath := "/srv/index.html", JSONContent := "",
      ContentType := "", CORS := none } (by decide) (by decide) (by decide)).1
    sampleFS "t" ResponseWriter.new (sampleRequest "POST" "")
  refine ⟨by decide, by decide, by decide, ?_⟩
  have e : sampleServer.routeContentType sampleUnicodeToLower
      { Path := "/", Type_ := "Static", FilePath := "/srv/index.html", JSONContent := "",
        ContentType := "", CORS := none } = "application/json" := by decide
  rw [e] at h
  rw [h]
  decide

/-! ## Routing of a request by the mux -/

/-- The registrations of a server that started with an empty mux. -/
theorem setupRoutes_bound (s : Server) (unicodeToLower : Char → Char)
    (hmux : s.mux.entries = []) :
    (s.setupRoutes unicodeToLower).mux.entries =
      s.config.Routes.map (fun route => (route.Path, s.boundHandler unicodeToLower route)) := by
  rw [setupRoutes_entries, hmux]
  rfl

/-- Among registrations with distinct patterns, the one found under the path of a route is
the one of that route. -/
theorem find_bound (h : Route → Handler) (path : String) :
    ∀ (routes : List Route) (route : Route), (routes.map Route.Path).Nodup →
      route ∈ routes → route.Path = path →
      (routes.map (fun x => (x.Path, h x))).find? (fun e => e.1 = path)
        = some (route.Path, h route) := by
  intro routes
  induction routes with
  | nil => intro route _ hin; cases hin
  | cons x rest ih =>
    intro route hnodup hin hpath
    simp only [List.map_cons, List.nodup_cons] at hnodup
    by_cases hx : x.Path = path
    · have hroute : route = x := by
        rcases List.mem_cons.mp hin with h1 | h1
        · exact h1
        · exfalso
          apply hnodup.1
          rw [hx, ← hpath]
          exact List.mem_map_of_mem Route.Path h1
      subst hroute
      simp [List.find?_cons, hx]
    · have hroute : route ∈ rest := by
        rcases List.mem_cons.mp hin with h1 | h1
        · subst h1
          exact absurd hpath hx
        · exact h1
      simp only [List.map_cons, List.find?_cons, hx, decide_False]
      exact ih route hnodup.2 hroute hpath

/-- No registration is found under a path that is the path of no route. -/
theorem find_unbound (h : Route → Handler) (path : String) (routes : List Route)
    (hnone : ∀ route ∈ routes, route.Path ≠ path) :
    (routes.map (fun x => (x.Path, h x))).find? (fun e => e.1 = path) = none := by
  rw [List.find?_eq_none]
  intro e he
  obtain ⟨x, hx, rfl⟩ := List.mem_map.mp he
  simpa using hnone x hx

/-- The search for the longest subtree returns nothing when no registration holds the
path, and otherwise a registration that holds the path and whose pattern is at least as
long as that of every other one that does. -/
theorem longestSubtree_result (path : String) :
    ∀ (entries : List (String × Handler)) (best : Option (String × Handler)),
      (∀ b, best = some b → subtreeHolds path b = true) →
      (entries.foldl (longerSubtree path) best = none ∧ best = none ∧
          ∀ e ∈ entries, subtreeHolds path e = false) ∨
      (∃ x, entries.foldl (longerSubtree path) best = some x ∧ subtreeHolds path x = true ∧
          (best = some x ∨ x ∈ entries) ∧
          (∀ e ∈ entries, subtreeHolds path e = true → e.1.length ≤ x.1.length) ∧
          (∀ b, best = some b → b.1.length ≤ x.1.length)) := by
  intro entries
  induction entries with
  | nil =>
    intro best hbest
    cases best with
    | none => left; exact ⟨rfl, rfl, fun e he => (by cases he)⟩
    | some b =>
      right
      refine ⟨b, rfl, hbest b rfl, Or.inl rfl, fun e he => (by cases he), fun b2 hb2 => ?_⟩
      cases hb2
      exact Nat.le_refl _
  | cons e rest ih =>
    intro best hbest
    simp only [List.foldl_cons]
    by_cases he : subtreeHolds path e = true
    · cases best with
      | none =>
        have hstep : longerSubtree path none e = some e := by simp [longerSubtree, he]
        rw [hstep]
        have hinv : ∀ b, some e = some b → subtreeHolds path b = true := by
          intro b hb
          cases hb
          exact he
        rcases ih (some e) hinv with h | ⟨x, h1, h2, h3, h4, h5⟩
        · exact absurd h.2.1 (by simp)
        · right
          refine ⟨x, h1, h2, Or.inr ?_, ?_, fun b hb => (by cases hb)⟩
          · rcases h3 with h3 | h3
            · cases h3; exact List.mem_cons_self _ _
            · exact List.mem_cons_of_mem _ h3
          · intro e2 he2 hh
            rcases List.mem_cons.mp he2 with h6 | h6
            · subst h6; exact h5 _ rfl
            · exact h4 e2 h6 hh
      | some b =>
        by_cases hlt : b.1.length < e.1.length
        · have hstep : longerSubtree path (some b) e = some e := by
            simp [longerSubtree, he, hlt]
          rw [hstep]
          have hinv : ∀ b2, some e = some b2 → subtreeHolds path b2 = true := by
            intro b2 hb2
            cases hb2
            exact he
          rcases ih (some e) hinv with h | ⟨x, h1, h2, h3, h4, h5⟩
          · exact absurd h.2.1 (by simp)
          · right
            have hex := h5 e rfl
            refine ⟨x, h1, h2, Or.inr ?_, ?_, fun b2 hb2 => ?_⟩
            · rcases h3 with h3 | h3
              · cases h3; exact List.mem_cons_self _ _
              · exact List.mem_cons_of_mem _ h3
            · intro e2 he2 hh
              rcases List.mem_cons.mp he2 with h6 | h6
              · subst h6; exact hex
              · exact h4 e2 h6 hh
            · cases hb2
              omega
        · have hstep : longerSubtree path (some b) e = some b := by
            simp [longerSubtree, he, hlt]
          rw [hstep]
          rcases ih (some b) hbest with h | ⟨x, h1, h2, h3, h4, h5⟩
          · exact absurd h.2.1 (by simp)
          · right
            have hbx := h5 b rfl
            refine ⟨x, h1, h2, ?_, ?_, h5⟩
            · rcases h3 with h3 | h3
              · exact Or.inl h3
              · exact Or.inr (List.mem_cons_of_mem _ h3)
            · intro e2 he2 hh
              rcases List.mem_cons.mp he2 with h6 | h6
              · subst h6; omega
              · exact h4 e2 h6 hh
    · have hstep : longerSubtree path best e = best := by simp [longerSubtree, he]
      rw [hstep]
      have hfalse : subtreeHolds path e = false := by simpa using he
      rcases ih best hbest with ⟨h1, h2, h3⟩ | ⟨x, h1, h2, h3, h4, h5⟩
      · left
        refine ⟨h1, h2, fun e2 he2 => ?_⟩
        rcases List.mem_cons.mp he2 with h6 | h6
        · subst h6; exact hfalse
        · exact h3 e2 h6
      · right
        refine ⟨x, h1, h2, ?_, ?_, h5⟩
        · rcases h3 with h3 | h3
          · exact Or.inl h3
          · exact Or.inr (List.mem_cons_of_mem _ h3)
        · intro e2 he2 hh
          rcases List.mem_cons.mp he2 with h6 | h6
          · subst h6; exact absurd hh he
          · exact h4 e2 h6 hh

theorem subtreeHolds_iff (path : String) (e : String × Handler) :
    subtreeHolds path e = true ↔
      e.1.data.getLast? = some '/' ∧ e.1.data <+: path.data := by
  simp [subtreeHolds, List.isPrefixOf_iff_prefix]

/-- The registrations of a server that started with an empty mux and whose route paths are
distinct plain paths are within the fragment. -/
theorem setupRoutes_modelled (s : Server) (unicodeToLower : Char → Char)
    (hmux : s.mux.entries = [])
    (hplain : ∀ route ∈ s.config.Routes, plainPath route.Path = true)
    (hnodup : (s.config.Routes.map Route.Path).Nodup) :
    (s.setupRoutes unicodeToLower).mux.modelled = true := by
  have hent := setupRoutes_bound s unicodeToLower hmux
  have hall : (s.setupRoutes unicodeToLower).mux.entries.all (fun e => plainPath e.1) = true := by
    rw [hent, List.all_eq_true]
    intro e he
    obtain ⟨route, hin, rfl⟩ := List.mem_map.mp he
    exact hplain route hin
  have hfst : (s.setupRoutes unicodeToLower).mux.entries.map Prod.fst
      = s.config.Routes.map Route.Path := by
    rw [hent, List.map_map]
    rfl
  simp only [ServeMux.modelled, hall, hfst, hnodup, and_self, decide_True]

/-- Within the fragment, a request with a canonical path that the mux does not redirect
goes to the match for its path, whatever its method. -/
theorem findHandler_clean (mux : ServeMux) (r : Request) (hmod : mux.modelled = true)
    (hun : unescapedPath r.Path = true) (hclean : cleanPath r.Path = r.Path)
    (hno : mux.shouldRedirect r.Path = false) :
    mux.findHandler r = some (mux.handler r.Path) := by
  simp [ServeMux.findHandler, hmod, hun, hclean, hno]

/-- C12, against the claim as stated: with the one route `/`, and with the one route
`/api/`, a POST to `/api/x`, which is the path of no route, is answered by the handler of
that route, with status 200 and the CORS headers, not with 404. -/
theorem ServeHTTP_subtree_is_served :
    (∀ route ∈ (sampleServerAt ["/"]).config.Routes, route.Path ≠ "/api/x") ∧
    ((sampleServerAt ["/"]).mux.ServeHTTP sampleRedirect sampleFS "t" ResponseWriter.new
      (sampleRequestTo "POST" "/api/x")).map (fun x => x.1.code) = some 200 ∧
    ((sampleServerAt ["/"]).mux.ServeHTTP sampleRedirect sampleFS "t" ResponseWriter.new
      (sampleRequestTo "POST" "/api/x")).map
        (fun x => x.1.snapHeader.lookup "Access-Control-Allow-Origin")
      = some (some ["https://example.com"]) ∧
    (∀ route ∈ (sampleServerAt ["/api/"]).config.Routes, route.Path ≠ "/api/x") ∧
    ((sampleServerAt ["/api/"]).mux.ServeHTTP sampleRedirect sampleFS "t" ResponseWriter.new
      (sampleRequestTo "POST" "/api/x")).map (fun x => x.1.code) = some 200 ∧
    ((sampleServerAt ["/api/"]).mux.ServeHTTP sampleRedirect sampleFS "t" ResponseWriter.new
      (sampleRequestTo "POST" "/api/x")).map
        (fun x => x.1.snapHeader.lookup "Access-Control-Allow-Origin")
      = some (some ["https://example.com"]) := by
  decide

/-- C12, amended: routing follows the pattern rules of `http.ServeMux`.  Let the route
paths be distinct plain paths (canonical rooted paths of letters, digits, the marks
`-._~` and slashes) and let the path of the request be a plain path too.  Then a request
whose path is the Path of a route is handled by the handler of that route; a request whose
path is the Path of no route, also not with a slash added, but lies under a Path that ends
in a slash is handled by the handler of the route with the longest such Path; and a
request whose path is the Path of no route, also not with a slash added, and lies under no
Path that ends in a slash is answered 404 by `http.NotFound`, no route handler runs and the
response has no header that begins with `Access-Control-`. -/
theorem ServeHTTP_routing (s : Server) (unicodeToLower : Char → Char)
    (redirect : String → Handler) (fs : FileSystem) (now : String) (w : ResponseWriter)
    (r : Request) (hmux : s.mux.entries = [])
    (hplain : ∀ route ∈ s.config.Routes, plainPath route.Path = true)
    (hnodup : (s.config.Routes.map Route.Path).Nodup)
    (hreq : plainPath r.Path = true) :
    (∀ route ∈ s.config.Routes, route.Path = r.Path →
      (s.setupRoutes unicodeToLower).mux.ServeHTTP redirect fs now w r
        = some (s.boundHandler unicodeToLower route fs now w r)) ∧
    ((∀ route ∈ s.config.Routes, route.Path ≠ r.Path ∧ route.Path ≠ r.Path ++ "/") →
      (∃ route ∈ s.config.Routes,
        route.Path.data.getLast? = some '/' ∧ route.Path.data <+: r.Path.data) →
      ∃ route ∈ s.config.Routes,
        route.Path.data.getLast? = some '/' ∧ route.Path.data <+: r.Path.data ∧
        (∀ other ∈ s.config.Routes, other.Path.data.getLast? = some '/' →
          other.Path.data <+: r.Path.data → other.Path.length ≤ route.Path.length) ∧
        (s.setupRoutes unicodeToLower).mux.ServeHTTP redirect fs now w r
          = some (s.boundHandler unicodeToLower route fs now w r)) ∧
    ((∀ route ∈ s.config.Routes, route.Path ≠ r.Path ∧ route.Path ≠ r.Path ++ "/" ∧
        ¬ (route.Path.data.getLast? = some '/' ∧ route.Path.data <+: r.Path.data)) →
      (s.setupRoutes unicodeToLower).mux.ServeHTTP redirect fs now w r
        = some (httpError w "404 page not found" StatusNotFound, []) ∧
      (w.wroteHeader = false → w.header = Header.empty →
        (httpError w "404 page not found" StatusNotFound).code = 404 ∧
        ∀ key : String, isCORSHeader key = true →
          (httpError w "404 page not found" StatusNotFound).snapHeader.lookup key = none)) := by
  have hent := setupRoutes_bound s unicodeToLower hmux
  have hmod := setupRoutes_modelled s unicodeToLower hmux hplain hnodup
  have hun : unescapedPath r.Path = true := by
    simp only [plainPath, Bool.decide_and, Bool.and_eq_true, decide_eq_true_eq] at hreq
    exact hreq.2.1
  have hclean : cleanPath r.Path = r.Path := by
    simp only [plainPath, Bool.decide_and, Bool.and_eq_true, decide_eq_true_eq] at hreq
    exact hreq.2.2
  generalize (s.setupRoutes unicodeToLower).mux = mux at hent hmod ⊢
  have hexact : ∀ path : String, mux.exact path =
      (s.config.Routes.map (fun route => (route.Path, s.boundHandler unicodeToLower route))).find?
        (fun e => e.1 = path) := by
    intro path
    simp only [ServeMux.exact, hent]
  have hnored : (∀ route ∈ s.config.Routes, route.Path ≠ r.Path ++ "/") →
      mux.shouldRedirect r.Path = false := by
    intro h
    simp [ServeMux.shouldRedirect, hexact, find_unbound _ _ _ h]
  refine ⟨fun route hin hpath => ?_, fun hno hsub => ?_, fun hno => ?_⟩
  · have hfound := find_bound (s.boundHandler unicodeToLower) r.Path s.config.Routes route
      hnodup hin hpath
    have hred : mux.shouldRedirect r.Path = false := by
      simp [ServeMux.shouldRedirect, hexact, hfound]
    simp [ServeMux.ServeHTTP, findHandler_clean mux r hmod hun hclean hred, ServeMux.handler,
      ServeMux.matchPattern, hexact, hfound]
  · have hred := hnored (fun route hin => (hno route hin).2)
    have hnone := find_unbound (s.boundHandler unicodeToLower) r.Path s.config.Routes
      (fun route hin => (hno route hin).1)
    have hmatch : mux.matchPattern r.Path = mux.entries.foldl (longerSubtree r.Path) none := by
      simp [ServeMux.matchPattern, hexact, hnone]
    rcases longestSubtree_result r.Path mux.entries none (fun b hb => by cases hb) with
      h | ⟨x, h1, h2, h3, h4, _⟩
    · exfalso
      obtain ⟨route, hin, hlast, hpre⟩ := hsub
      have hmem : (route.Path, s.boundHandler unicodeToLower route) ∈ mux.entries := by
        rw [hent]
        exact List.mem_map.mpr ⟨route, hin, rfl⟩
      have hholds : subtreeHolds r.Path (route.Path, s.boundHandler unicodeToLower route)
          = true := (subtreeHolds_iff _ _).mpr ⟨hlast, hpre⟩
      rw [h.2.2 _ hmem] at hholds
      cases hholds
    · have hx : x ∈ mux.entries := by
        rcases h3 with h3 | h3
        · cases h3
        · exact h3
      rw [hent] at hx
      obtain ⟨route, hin, rfl⟩ := List.mem_map.mp hx
      obtain ⟨hlast, hpre⟩ := (subtreeHolds_iff _ _).mp h2
      refine ⟨route, hin, hlast, hpre, fun other hother olast opre => ?_, ?_⟩
      · have hmem : (other.Path, s.boundHandler unicodeToLower other) ∈ mux.entries := by
          rw [hent]
          exact List.mem_map.mpr ⟨other, hother, rfl⟩
        exact h4 _ hmem ((subtreeHolds_iff _ _).mpr ⟨olast, opre⟩)
      · simp [ServeMux.ServeHTTP, findHandler_clean mux r hmod hun hclean hred,
          ServeMux.handler, hmatch, h1]
  · have hred := hnored (fun route hin => (hno route hin).2.1)
    have hnone := find_unbound (s.boundHandler unicodeToLower) r.Path s.config.Routes
      (fun route hin => (hno route hin).1)
    have hmatch : mux.matchPattern r.Path = none := by
      have hm : mux.matchPattern r.Path = mux.entries.foldl (longerSubtree r.Path) none := by
        simp [ServeMux.matchPattern, hexact, hnone]
      rcases longestSubtree_result r.Path mux.entries none (fun b hb => by cases hb) with
        h | ⟨x, _, h2, h3, _, _⟩
      · rw [hm, h.1]
      · exfalso
        have hx : x ∈ mux.entries := by
          rcases h3 with h3 | h3
          · cases h3
          · exact h3
        rw [hent] at hx
        obtain ⟨route, hin, rfl⟩ := List.mem_map.mp hx
        exact (hno route hin).2.2 ((subtreeHolds_iff _ _).mp h2)
    have hserve : mux.ServeHTTP redirect fs now w r
        = some (httpError w "404 page not found" StatusNotFound, []) := by
      simp [ServeMux.ServeHTTP, findHandler_clean mux r hmod hun hclean hred,
        ServeMux.handler, hmatch]
    refine ⟨hserve, fun hw hempty => ?_⟩
    refine ⟨(httpError_result w _ _ hw).1, fun key hkey => ?_⟩
    obtain ⟨h1, h2, h3⟩ := isCORSHeader_ne key hkey
    rw [httpError_keeps w _ _ key hw h1 h2 h3, hempty]
    rfl

/-- Witness of C12 amended: with the routes `/api/` and `/v1/json/begin`, a POST to
`/v1/json/begin` is handled by the route of that path, a POST to `/api/x` by a route whose
path is a prefix of it, and a GET for `/other` is answered 404. -/
theorem ServeHTTP_routing_witness :
    (New (sampleConfigAt ["/api/", "/v1/json/begin"])).mux.entries = [] ∧
    (∀ route ∈ (New (sampleConfigAt ["/api/", "/v1/json/begin"])).config.Routes,
      plainPath route.Path = true) ∧
    ((New (sampleConfigAt ["/api/", "/v1/json/begin"])).config.Routes.map Route.Path).Nodup ∧
    plainPath (sampleRequestTo "POST" "/v1/json/begin").Path = true ∧
    (sampleServerAt ["/api/", "/v1/json/begin"]).mux.ServeHTTP sampleRedirect sampleFS "t"
        ResponseWriter.new (sampleRequestTo "POST" "/v1/json/begin")
      = some ((New (sampleConfigAt ["/api/", "/v1/json/begin"])).boundHandler
          sampleUnicodeToLower (sampleRouteAt "/v1/json/begin" "dummy") sampleFS "t"
          ResponseWriter.new (sampleRequestTo "POST" "/v1/json/begin")) ∧
    plainPath (sampleRequestTo "GET" "/other").Path = true ∧
    (sampleServerAt ["/api/", "/v1/json/begin"]).mux.ServeHTTP sampleRedirect sampleFS "t"
        ResponseWriter.new (sampleRequestTo "GET" "/other")
      = some (httpError ResponseWriter.new "404 page not found" StatusNotFound, []) ∧
    (httpError ResponseWriter.new "404 page not found" StatusNotFound).code = 404 ∧
    plainPath (sampleRequestTo "POST" "/api/x").Path = true ∧
    (∃ route ∈ (New (sampleConfigAt ["/api/", "/v1/json/begin"])).config.Routes,
      route.Path.data <+: "/api/x".data ∧
      (sampleServerAt ["/api/", "/v1/json/begin"]).mux.ServeHTTP sampleRedirect sampleFS "t"
          ResponseWriter.new (sampleRequestTo "POST" "/api/x")
        = some ((New (sampleConfigAt ["/api/", "/v1/json/begin"])).boundHandler
            sampleUnicodeToLower route sampleFS "t" ResponseWriter.new
            (sampleRequestTo "POST" "/api/x"))) :=
  ⟨rfl, by decide, by decide, by decide,
    (ServeHTTP_routing (New (sampleConfigAt ["/api/", "/v1/json/begin"])) sampleUnicodeToLower
      sampleRedirect sampleFS "t" ResponseWriter.new (sampleRequestTo "POST" "/v1/json/begin")
      rfl (by decide) (by decide) (by decide)).1
      (sampleRouteAt "/v1/json/begin" "dummy") (by decide) rfl,
    by decide,
    ((ServeHTTP_routing (New (sampleConfigAt ["/api/", "/v1/json/begin"])) sampleUnicodeToLower
      sampleRedirect sampleFS "t" ResponseWriter.new (sampleRequestTo "GET" "/other")
      rfl (by decide) (by decide) (by decide)).2.2 (by decide)).1,
    (((ServeHTTP_routing (New (sampleConfigAt ["/api/", "/v1/json/begin"])) sampleUnicodeToLower
      sampleRedirect sampleFS "t" ResponseWriter.new (sampleRequestTo "GET" "/other")
      rfl (by decide) (by decide) (by decide)).2.2 (by decide)).2 rfl rfl).1,
    by decide,
    match (ServeHTTP_routing (New (sampleConfigAt ["/api/", "/v1/json/begin"]))
      sampleUnicodeToLower sampleRedirect sampleFS "t" ResponseWriter.new
      (sampleRequestTo "POST" "/api/x") rfl (by decide) (by decide) (by decide)).2.1
      (by decide) (by decide) with
    | ⟨route, hin, _, hpre, _, hserve⟩ => ⟨route, hin, hpre, hserve⟩⟩

end MockCors
